import Mathlib

/-!
# wsdd2: the network endpoint engine of `wsdd2.c`

A shallow embedding of the endpoint engine of the WSDD/LLMNR daemon:
the interface selector and the Building loop of `main`, the endpoint
builder `open_ep`, teardown through `close_ep`, the readiness loop, the
link monitor (`is_new_addr`, `netlink_recv`), the restart flag, the
reply-source resolver `connected_if` and the option loop of `main`.

Conventions of the embedding.
* C strings are `String`s (the bytes before the terminating NUL).
* `int` results and socket handles are `Int`; flag words, ports, errno
  values and interface indices are `Nat`.
* The operating system is explicit: every fallible call takes its outcome
  from an environment record (`none` is success, `some e` is failure with
  `errno = e`), and the descriptor table is a value of type `OsState`.
* `calloc` is taken to succeed (its failure ends the process inside `err`).
-/

namespace Wsdd2

/-! ## Constants of the Linux headers -/

def AF_INET : Nat := 2
def AF_INET6 : Nat := 10
def AF_NETLINK : Nat := 16

def SOCK_STREAM : Nat := 1
def SOCK_DGRAM : Nat := 2
def SOCK_RAW : Nat := 3

def NETLINK_ROUTE : Nat := 0
def RTMGRP_LINK : Nat := 1
def RTMGRP_IPV4_IFADDR : Nat := 0x10
def RTMGRP_IPV6_IFADDR : Nat := 0x100

def IFF_LOOPBACK : Nat := 0x8
def IFF_SLAVE : Nat := 0x800
def IFF_MULTICAST : Nat := 0x1000

def EINTR : Nat := 4
def EBADF : Nat := 9
def EINVAL : Nat := 22
def EAFNOSUPPORT : Nat := 97
def EADDRINUSE : Nat := 98
def EADDRNOTAVAIL : Nat := 99

def EXIT_SUCCESS : Nat := 0
def EXIT_FAILURE : Nat := 1

def SIGHUP : Nat := 1
def SIGINT : Nat := 2
def SIGTERM : Nat := 15

def NLMSG_DONE : Nat := 3
def RTM_NEWADDR : Nat := 20
def RTM_DELADDR : Nat := 21
def IFA_CACHEINFO : Nat := 6

def IPPROTO_IP : Nat := 0
def IPPROTO_IPV6 : Nat := 41
def IP_MULTICAST_LOOP : Nat := 34
def IP_ADD_MEMBERSHIP : Nat := 35
def IP_DROP_MEMBERSHIP : Nat := 36
def IPV6_MULTICAST_LOOP : Nat := 19
def IPV6_ADD_MEMBERSHIP : Nat := 20
def IPV6_DROP_MEMBERSHIP : Nat := 21

/-! ## C string functions -/

/-- Sign of `strcmp` on the characters before the NUL: `0` exactly on equal strings. -/
def strcmp_chars : List Char → List Char → Int
  | [], [] => 0
  | [], _ :: _ => -1
  | _ :: _, [] => 1
  | a :: as, b :: bs =>
    if a = b then strcmp_chars as bs else if a.toNat < b.toNat then -1 else 1

/-- Sign of `strncmp`: at most `n` characters are compared. -/
def strncmp_chars : List Char → List Char → Nat → Int
  | _, _, 0 => 0
  | [], [], _ + 1 => 0
  | [], _ :: _, _ + 1 => -1
  | _ :: _, [], _ + 1 => 1
  | a :: as, b :: bs, n + 1 =>
    if a = b then strncmp_chars as bs n else if a.toNat < b.toNat then -1 else 1

def strcmp (a b : String) : Int := strcmp_chars a.toList b.toList

def strncmp (a b : String) (n : Nat) : Int := strncmp_chars a.toList b.toList n

/-- Whether `strstr hay needle` is non-NULL: some suffix of `hay` starts with `needle`. -/
def strstr_chars : List Char → List Char → Bool
  | [], needle => needle.isEmpty
  | h :: hs, needle => (needle.isPrefixOf (h :: hs)) || strstr_chars hs needle

def strstr (hay needle : String) : Bool := strstr_chars hay.toList needle.toList

/-! ## Service descriptors (`struct service`, `services[]`) -/

/-- The `struct service` record; a callback slot holds the name of the function it points to. -/
structure service where
  name : String
  family : Nat
  type : Nat
  protocol : Nat := 0
  port_name : Option String := none
  port_num : Nat := 0
  mcast_addr : Option String := none
  nl_groups : Nat := 0
  init : Option String := none
  recv : Option String := none
  exit : Option String := none
deriving DecidableEq, Repr

def services : List service := [
  { name := "wsdd-mcast-v4", family := AF_INET, type := SOCK_DGRAM,
    port_name := some "wsdd", port_num := 3702, mcast_addr := some "239.255.255.250",
    init := some "wsd_init", recv := some "wsd_recv", exit := some "wsd_exit" },
  { name := "wsdd-mcast-v6", family := AF_INET6, type := SOCK_DGRAM,
    port_name := some "wsdd", port_num := 3702, mcast_addr := some "ff02::c",
    init := some "wsd_init", recv := some "wsd_recv", exit := some "wsd_exit" },
  { name := "wsdd-http-v4", family := AF_INET, type := SOCK_STREAM,
    port_name := some "wsdd", port_num := 3702, recv := some "wsd_recv" },
  { name := "wsdd-http-v6", family := AF_INET6, type := SOCK_STREAM,
    port_name := some "wsdd", port_num := 3702, recv := some "wsd_recv" },
  { name := "llmnr-mcast-v4", family := AF_INET, type := SOCK_DGRAM,
    port_name := some "llmnr", port_num := 5355, mcast_addr := some "224.0.0.252",
    init := some "llmnr_init", recv := some "llmnr_recv", exit := some "llmnr_exit" },
  { name := "llmnr-mcast-v6", family := AF_INET6, type := SOCK_DGRAM,
    port_name := some "llmnr", port_num := 5355, mcast_addr := some "ff02::1:3",
    init := some "llmnr_init", recv := some "llmnr_recv", exit := some "llmnr_exit" },
  { name := "llmnr-tcp-v4", family := AF_INET, type := SOCK_STREAM,
    port_name := some "llmnr", port_num := 5355,
    init := some "llmnr_init", recv := some "llmnr_recv", exit := some "llmnr_exit" },
  { name := "llmnr-tcp-v6", family := AF_INET6, type := SOCK_STREAM,
    port_name := some "llmnr", port_num := 5355,
    init := some "llmnr_init", recv := some "llmnr_recv", exit := some "llmnr_exit" },
  { name := "ifaddr-netlink-v4v6", family := AF_NETLINK, type := SOCK_RAW,
    protocol := NETLINK_ROUTE,
    nl_groups := RTMGRP_LINK ||| RTMGRP_IPV4_IFADDR ||| RTMGRP_IPV6_IFADDR,
    recv := some "netlink_recv" }
]

/-- The per-family table `sock_params[]`. -/
structure sock_params_t where
  family : Nat
  name : String
  ipproto_ip : Nat := 0
  ip_multicast_loop : Nat := 0
  ip_add_membership : Nat := 0
  ip_drop_membership : Nat := 0
  llen : Nat
  mlen : Nat := 0
  mreqlen : Nat := 0
deriving DecidableEq, Repr

/-- Lookup `sock_params[family]`: `none` when the index is past the array or the
slot has no `name` (the test at the head of `open_ep`). -/
def sock_params (family : Nat) : Option sock_params_t :=
  if family = AF_INET then
    some { family := AF_INET, name := "IPv4", ipproto_ip := IPPROTO_IP,
           ip_multicast_loop := IP_MULTICAST_LOOP,
           ip_add_membership := IP_ADD_MEMBERSHIP,
           ip_drop_membership := IP_DROP_MEMBERSHIP,
           llen := 16, mlen := 16, mreqlen := 12 }
  else if family = AF_INET6 then
    some { family := AF_INET6, name := "IPv6", ipproto_ip := IPPROTO_IPV6,
           ip_multicast_loop := IPV6_MULTICAST_LOOP,
           ip_add_membership := IPV6_ADD_MEMBERSHIP,
           ip_drop_membership := IPV6_DROP_MEMBERSHIP,
           llen := 28, mlen := 28, mreqlen := 20 }
  else if family = AF_NETLINK then
    some { family := AF_NETLINK, name := "NETLINK", llen := 12 }
  else none

/-- The `servicename[]` table: transport name handed to `getservbyname`. -/
def servicename (type : Nat) : Option String :=
  if type = SOCK_STREAM then some "tcp"
  else if type = SOCK_DGRAM then some "udp"
  else none

/-! ## Interface address records -/

/-- A socket address as the engine reads it: the family tag and the bytes of the
address field (`sin_addr`, 4 bytes, or `sin6_addr`, 16 bytes). -/
structure sockaddr where
  sa_family : Nat
  addr : List Nat
deriving DecidableEq, Repr

/-- One record of the `getifaddrs` list. `ifa_addr` may be NULL; the netmask of
a record that carries an IP address is the byte string `ifa_netmask`. -/
structure ifaddrs where
  ifa_name : String
  ifa_flags : Nat := 0
  ifa_addr : Option sockaddr := none
  ifa_netmask : List Nat := []
deriving DecidableEq, Repr

/-- What the engine asks of the host: the interface list, the name/index maps
and the bridge-port probe `stat("/sys/class/net/<name>/brport") == 0`. -/
structure Host where
  getifaddrs : Option (List ifaddrs)
  if_nametoindex : String → Nat
  if_indextoname : Nat → Option String
  brport : String → Bool

/-! ## Reply-source resolver (`connected_if`) -/

/-- The `alen` chosen by the `switch` on the remote family; `none` is `default: continue`. -/
def addr_len (family : Nat) : Option Nat :=
  if family = AF_INET then some 4
  else if family = AF_INET6 then some 16
  else none

/-- Byte `i` of a buffer. -/
def byte_at (buf : List Nat) (i : Nat) : Nat := buf.getD i 0

/-- The inner `for` of `connected_if`, from index `i` with `k` bytes to go:
`0` when every byte agrees under the mask, `-1` at the first one that differs. -/
def mask_loop (_if _nm _sa : List Nat) : Nat → Nat → Int
  | _, 0 => 0
  | i, k + 1 =>
    if (byte_at _if i &&& byte_at _nm i) ≠ (byte_at _sa i &&& byte_at _nm i) then -1
    else mask_loop _if _nm _sa (i + 1) k

/-- The first `n` bytes of `dst` replaced by those of `src`. -/
def memcpy (dst src : List Nat) (n : Nat) : List Nat :=
  (List.range n).map (byte_at src) ++ dst.drop n

/-- The `for` over the interface list in `connected_if`, entered with the current `rv`. -/
def connected_if_loop (h : Host) (ifindex : Nat) (sa : sockaddr) :
    List ifaddrs → Int → sockaddr → Int × sockaddr
  | [], rv, ci => (rv, ci)
  | ifa :: rest, rv, ci =>
    match ifa.ifa_addr with
    | none => connected_if_loop h ifindex sa rest rv ci
    | some a =>
      if sa.sa_family ≠ a.sa_family then connected_if_loop h ifindex sa rest rv ci
      else if ifindex ≠ 0 ∧ h.if_nametoindex ifa.ifa_name ≠ ifindex then
        connected_if_loop h ifindex sa rest rv ci
      else
        match addr_len sa.sa_family with
        | none => connected_if_loop h ifindex sa rest rv ci
        | some alen =>
          let rv1 := mask_loop a.addr ifa.ifa_netmask sa.addr 0 alen
          if rv1 = 0 then (0, { ci with addr := memcpy ci.addr a.addr alen })
          else connected_if_loop h ifindex sa rest rv1 ci

/-- The resolver: returns `(rv, ci, errno)`. -/
def connected_if (h : Host) (ifindex : Nat) (sa ci : sockaddr) (errno : Nat) :
    Int × sockaddr × Nat :=
  match h.getifaddrs with
  | none => (-1, ci, EADDRNOTAVAIL)
  | some l =>
    let r := connected_if_loop h ifindex sa l (-1) { ci with sa_family := sa.sa_family }
    (r.1, r.2, if r.1 ≠ 0 then EADDRNOTAVAIL else errno)

/-- The resolver's condition in the words of the specification: same family as the
remote address, the configured interface index when one is set, and
`(addr & mask) == (remote & mask)` on each of the `alen` address bytes. -/
def on_link (h : Host) (ifindex : Nat) (sa : sockaddr) (alen : Nat) (e : ifaddrs) : Bool :=
  match e.ifa_addr with
  | none => false
  | some a =>
    decide (a.sa_family = sa.sa_family) &&
    decide (ifindex ≠ 0 → h.if_nametoindex e.ifa_name = ifindex) &&
    decide (∀ i, i < alen →
      byte_at a.addr i &&& byte_at e.ifa_netmask i = byte_at sa.addr i &&& byte_at e.ifa_netmask i)

/-- The address bytes of a record (empty when it carries no address). -/
def ifa_bytes (e : ifaddrs) : List Nat :=
  match e.ifa_addr with
  | none => []
  | some a => a.addr

/-! ## Restart flag (`restart`, `sighandler`, `restart_service`) -/

/-- The value `sighandler` stores in `restart`, whatever the flag held. -/
def sighandler (sig : Nat) (_restart : Nat) : Nat :=
  if sig = SIGHUP then 1 else 2

/-- The value `restart_service` stores in `restart`; the `longjmp` that follows is
the `jumped` result of the function that called it. -/
def restart_service (_restart : Nat) : Nat := 1

/-- The supervisor after teardown: `if (restart == 1) { restart = 0; goto again; }`.
Returns the flag and whether the jump to `again` is taken. -/
def supervisor_clear (restart : Nat) : Nat × Bool :=
  if restart = 1 then (0, true) else (restart, false)

/-- The writers of the restart flag. -/
inductive Writer where
  | sighandler (sig : Nat)
  | restart_service
  | supervisor
deriving DecidableEq, Repr

/-- One write to the restart flag: `FlagStep w f g` when writer `w` takes the flag
from `f` to `g`. The handler is installed for `SIGINT`, `SIGHUP` and `SIGTERM`. -/
inductive FlagStep : Writer → Nat → Nat → Prop where
  | signal (sig f : Nat) (hsig : sig = SIGHUP ∨ sig = SIGINT ∨ sig = SIGTERM) :
      FlagStep (Writer.sighandler sig) f (sighandler sig f)
  | restart (f : Nat) : FlagStep Writer.restart_service f (restart_service f)
  | clear (f : Nat) : FlagStep Writer.supervisor f (supervisor_clear f).1

/-! ## Link monitor (`is_new_addr`, `netlink_recv`) -/

/-- One route attribute of an address message; `cstamp` and `tstamp` are the fields
of its payload read as `struct ifa_cacheinfo`. -/
structure rtattr where
  rta_type : Nat
  cstamp : Nat := 0
  tstamp : Nat := 0
deriving DecidableEq, Repr

/-- One netlink message: the header type, the `ifa_index` of its `ifaddrmsg`
payload and the attributes walked with `RTA_OK` / `RTA_NEXT`. -/
structure nlmsghdr where
  nlmsg_type : Nat
  ifa_index : Nat := 0
  attrs : List rtattr := []
deriving DecidableEq, Repr

/-- The `while (RTA_OK ...)` loop of `is_new_addr`: `false` at the first cache-info
attribute whose creation and update stamps differ. -/
def cacheinfo_loop : List rtattr → Bool
  | [] => true
  | rta :: rest =>
    if rta.rta_type = IFA_CACHEINFO ∧ rta.cstamp ≠ rta.tstamp then false
    else cacheinfo_loop rest

/-- The function `is_new_addr` over the globals `ifname` and `ifindex`; returns the
result and the new value of `ifindex`. (`ifname` is set whenever `ifindex` is
non-zero; the `strcmp` against an unset name is taken as a mismatch.) -/
def is_new_addr (h : Host) (ifname : Option String) (ifindex : Nat) (nh : nlmsghdr) :
    Bool × Nat :=
  if nh.nlmsg_type ≠ RTM_NEWADDR then (false, ifindex)
  else if ifindex ≠ 0 ∧ nh.ifa_index ≠ ifindex then
    match h.if_indextoname ifindex, ifname with
    | none, _ => (false, ifindex)
    | some _, none => (false, ifindex)
    | some buf, some name =>
      if strcmp buf name ≠ 0 then (false, ifindex)
      else (cacheinfo_loop nh.attrs, nh.ifa_index)
  else (cacheinfo_loop nh.attrs, ifindex)

/-- Result of a scan of a message batch: the restart flag, `ifindex`, and whether
`restart_service` was called (the scan then ends in its `longjmp`). -/
structure ScanResult where
  restart : Nat
  ifindex : Nat
  jumped : Bool
deriving DecidableEq, Repr

/-- The `for` over the headers in `netlink_recv`. -/
def netlink_loop (h : Host) (ifname : Option String) :
    List nlmsghdr → Nat → Nat → ScanResult
  | [], restart, ifindex => ⟨restart, ifindex, false⟩
  | nh :: rest, restart, ifindex =>
    if nh.nlmsg_type = NLMSG_DONE then ⟨restart, ifindex, false⟩
    else
      let r := is_new_addr h ifname ifindex nh
      if r.1 = true ∨ nh.nlmsg_type = RTM_DELADDR then
        ⟨restart_service restart, r.2, true⟩
      else netlink_loop h ifname rest restart r.2

/-- What `netlink_recv` leaves behind: its return value when it returns, the error
slot it wrote, and the scan result. -/
structure NetlinkResult where
  rv : Int
  errstr : Option String
  scan : ScanResult
deriving DecidableEq, Repr

/-- The function `netlink_recv`; `msg` is `none` when `recvmsg` returned `msglen <= 0`,
else the batch it read. -/
def netlink_recv (h : Host) (ifname : Option String) (msg : Option (List nlmsghdr))
    (restart ifindex : Nat) : NetlinkResult :=
  match msg with
  | none => ⟨-1, some "netlink_recv: netlink_recv: recv", ⟨restart, ifindex, false⟩⟩
  | some batch => ⟨0, none, netlink_loop h ifname batch restart ifindex⟩

/-! ## The operating system seen by the builder -/

/-- Descriptor accounting: the open descriptors, how many sockets were created, how
many `close` calls hit an open descriptor, how many hit one that was not open, and
the current `errno`. -/
structure OsState where
  opened : List Nat := []
  created : Nat := 0
  closed : Nat := 0
  badclose : Nat := 0
  errno : Nat := 0
deriving DecidableEq, Repr

/-- Search for the lowest descriptor not in `opened`, from candidate `n` with `k` tries left. -/
def lowest_free_from (opened : List Nat) : Nat → Nat → Nat
  | n, 0 => n
  | n, k + 1 => if n ∈ opened then lowest_free_from opened (n + 1) k else n

/-- The descriptor a successful `socket` returns: the lowest one not open. -/
def lowest_free (opened : List Nat) : Nat := lowest_free_from opened 0 opened.length

/-- The call `close(fd)`. -/
def sys_close (fd : Int) (os : OsState) : OsState :=
  if 0 ≤ fd ∧ fd.toNat ∈ os.opened then
    { os with opened := os.opened.erase fd.toNat, closed := os.closed + 1 }
  else { os with badclose := os.badclose + 1, errno := EBADF }

/-- Outcomes of the calls one run of `open_ep` makes. For a call that can fail,
`none` is success and `some e` is failure with `errno = e`. -/
structure OpenEnv where
  getservbyname : Option String → Option String → Option Nat := fun _ _ => none
  inet_pton : Nat → String → Int := fun _ _ => 1
  if_nametoindex : String → Nat := fun _ => 0
  socket : Option Nat := none
  so_rcvbufforce : Option Nat := none
  ipv6_v6only : Option Nat := none
  so_bindtodevice : Option Nat := none
  bind : Option Nat := none
  ip_pktinfo : Option Nat := none
  ip_multicast_if : Option Nat := none
  ip_multicast_loop : Option Nat := none
  ip_add_membership : Option Nat := none
  listen : Option Nat := none
  init : Int := 0
  init_err : Option (String × Nat) := none

/-! ## Endpoints and the builder (`open_ep`) -/

/-- The `struct endpoint` record (zeroed by `calloc`). -/
structure endpoint where
  ifname : String
  service : service
  family : Nat
  type : Nat
  protocol : Nat
  port : Nat := 0
  sock : Int := 0
  errstr : Option String := none
  _errno : Nat := 0
  llen : Nat := 0
  mlen : Nat := 0
  mreqlen : Nat := 0
  local_port : Nat := 0
  local_groups : Nat := 0
  mcast_port : Nat := 0
  mcast_group : Option String := none
  mreq_address : List Nat := []
  mreq_ifindex : Nat := 0
deriving DecidableEq, Repr

/-- The return point of a run of `open_ep`: the call that failed, or `done`. -/
inductive Stage where
  | family | port | mcast_addr | socket | v6only | bindtodevice | bind
  | pktinfo | multicast_if | multicast_loop | add_membership | listen | init | done
deriving DecidableEq, Repr

/-- What a run of `open_ep` leaves: the return value, the endpoint stored in `*epp`,
the descriptor table, and the return point. -/
structure OpenResult where
  rv : Int
  ep : endpoint
  os : OsState
  stage : Stage

/-- The common failure path after the socket exists: record the error, close, return `-1`. -/
def fail_close (ep : endpoint) (os : OsState) (msg : String) (e : Nat) (stage : Stage) :
    OpenResult :=
  ⟨-1, { ep with errstr := some msg, _errno := e }, sys_close ep.sock { os with errno := e },
    stage⟩

/-- Lines 486-490: the service init callback. `env.init` is its return value and
`env.init_err` the error slot it wrote, if it wrote one. -/
def open_ep_init (env : OpenEnv) (os : OsState) (ep : endpoint) : OpenResult :=
  if ep.service.init.isSome then
    let ep1 : endpoint :=
      match env.init_err with
      | some (msg, e) => { ep with errstr := some msg, _errno := e }
      | none => ep
    if env.init ≠ 0 then ⟨-1, ep1, sys_close ep1.sock os, Stage.init⟩
    else ⟨0, ep1, os, Stage.done⟩
  else ⟨0, ep, os, Stage.done⟩

/-- Lines 479-484: `listen` on stream sockets. -/
def open_ep_listen (env : OpenEnv) (os : OsState) (ep : endpoint) : OpenResult :=
  if ep.type = SOCK_STREAM then
    match env.listen with
    | some e => fail_close ep os "open_ep: listen" e Stage.listen
    | none => open_ep_init env os ep
  else open_ep_init env os ep

/-- Lines 441-477: multicast options and membership. -/
def open_ep_mcast (env : OpenEnv) (os : OsState) (sv : service) (ep : endpoint) :
    OpenResult :=
  if sv.mcast_addr.isSome then
    match (if ep.family = AF_INET then env.ip_pktinfo else none) with
    | some e => fail_close ep os "open_ep: IP_PKTINFO" e Stage.pktinfo
    | none =>
      match (if ep.family = AF_INET then env.ip_multicast_if else none) with
      | some e => fail_close ep os "open_ep: IP_MULTICAST_IF" e Stage.multicast_if
      | none =>
        match env.ip_multicast_loop with
        | some e => fail_close ep os "open_ep: IP_MULTICAST_LOOP" e Stage.multicast_loop
        | none =>
          match env.ip_add_membership with
          | some e => fail_close ep os "open_ep: IP_ADD_MEMBERSHIP" e Stage.add_membership
          | none => open_ep_listen env os ep
  else open_ep_listen env os ep

/-- Lines 432-439: `bind` and the address-in-use policy. -/
def open_ep_bind (env : OpenEnv) (os : OsState) (sv : service) (ep : endpoint) :
    OpenResult :=
  match env.bind with
  | some e =>
    ⟨if e = EADDRINUSE then 0 else -1,
      { ep with errstr := some "open_ep: bind", _errno := e, sock := -1 },
      sys_close ep.sock { os with errno := e }, Stage.bind⟩
  | none => open_ep_mcast env os sv ep

/-- Lines 391-430: `socket` and the socket-level options. The results of
`SO_REUSEADDR` and `SO_REUSEPORT` are not looked at; a failing `SO_RCVBUFFORCE`
only logs a warning. -/
def open_ep_socket (env : OpenEnv) (os : OsState) (sv : service) (ep : endpoint) :
    OpenResult :=
  match env.socket with
  | some e =>
    ⟨-1, { ep with sock := -1, errstr := some "open_ep: Can't open socket", _errno := e },
      { os with errno := e }, Stage.socket⟩
  | none =>
    let fd := lowest_free os.opened
    let os1 : OsState := { os with opened := fd :: os.opened, created := os.created + 1 }
    let ep1 : endpoint := { ep with sock := (fd : Int) }
    let os2 : OsState :=
      match (if ep1.family = AF_NETLINK then env.so_rcvbufforce else none) with
      | some e => { os1 with errno := e }
      | none => os1
    match (if ep1.family = AF_INET6 then env.ipv6_v6only else none) with
    | some e => fail_close ep1 os2 "open_ep: IPV6_V6ONLY" e Stage.v6only
    | none =>
      match (if sv.mcast_addr.isNone ∧ (ep1.family = AF_INET ∨ ep1.family = AF_INET6)
              then env.so_bindtodevice else none) with
      | some e => fail_close ep1 os2 "open_ep: SO_BINDTODEVICE" e Stage.bindtodevice
      | none => open_ep_bind env os2 sv ep1

/-- Lines 334-389: the local, multicast and membership addresses per family. The
`inet_pton` result `-1` sets `errno`; `0` leaves it as it was. -/
def open_ep_addresses (env : OpenEnv) (os : OsState) (sv : service) (ifa : ifaddrs)
    (sp : sock_params_t) (ep : endpoint) : OpenResult :=
  let ep1 : endpoint := { ep with mlen := sp.llen, llen := sp.llen, mreqlen := sp.mreqlen }
  if ep1.family = AF_INET ∨ ep1.family = AF_INET6 then
    match sv.mcast_addr with
    | some group =>
      let ep2 : endpoint := { ep1 with mcast_port := ep1.port }
      let ret := env.inet_pton ep1.family group
      if ret ≠ 1 then
        let os1 : OsState := if ret < 0 then { os with errno := EAFNOSUPPORT } else os
        ⟨-1, { ep2 with
                errstr := some (if ep1.family = AF_INET then "open_ep: Bad mcast IP addr"
                                else "open_ep: Bad mcast IPv6 addr"),
                _errno := os1.errno }, os1, Stage.mcast_addr⟩
      else
        let ep3 : endpoint :=
          { ep2 with
              mcast_group := some group,
              mreq_address := if ep1.family = AF_INET then ifa_bytes ifa else [],
              mreq_ifindex := env.if_nametoindex ep1.ifname,
              local_port := ep1.port }
        open_ep_socket env os sv ep3
    | none => open_ep_socket env os sv { ep1 with local_port := ep1.port }
  else if ep1.family = AF_NETLINK then
    open_ep_socket env os sv { ep1 with local_groups := ep1.service.nl_groups }
  else open_ep_socket env os sv ep1

/-- The function `open_ep` (lines 301-492). -/
def open_ep (env : OpenEnv) (os : OsState) (sv : service) (ifa : ifaddrs) : OpenResult :=
  let ep : endpoint :=
    { ifname := ifa.ifa_name, service := sv, family := sv.family, type := sv.type,
      protocol := sv.protocol }
  match sock_params sv.family with
  | none =>
    ⟨-1, { ep with errstr := some "open_ep: Unsupported address family", _errno := EINVAL },
      os, Stage.family⟩
  | some sp =>
    if sv.family = AF_INET ∨ sv.family = AF_INET6 then
      let port0 := (env.getservbyname sv.port_name (servicename sv.type)).getD 0
      let port := if port0 = 0 then sv.port_num else port0
      if port = 0 then
        ⟨-1, { ep with errstr := some "open_ep: No port number", _errno := EADDRNOTAVAIL },
          os, Stage.port⟩
      else open_ep_addresses env os sv ifa sp { ep with port := port }
    else open_ep_addresses env os sv ifa sp ep

/-- The function `close_ep`: the exit callback and the membership drop leave the
descriptor table alone; `close` releases the socket. -/
def close_ep (os : OsState) (ep : endpoint) : OsState := sys_close ep.sock os

/-! ## The supervisor (`main`): Building -/

def _4 : Nat := 1
def _6 : Nat := 2
def _TCP : Nat := 1
def _UDP : Nat := 2
def _LLMNR : Nat := 1
def _WSDD : Nat := 2

/-- The selections left by option parsing at the label `again`: the three
bit sets and the globals `ifname` / `ifindex` set by `-i`. -/
structure Options where
  ipv46 : Nat := _4 ||| _6
  tcpudp : Nat := _TCP ||| _UDP
  llmnrwsdd : Nat := _LLMNR ||| _WSDD
  ifname : Option String := none
  ifindex : Nat := 0

/-- The six `continue` tests at the head of the service loop (lines 743-754). -/
def service_skipped (o : Options) (sv : service) : Bool :=
  (o.ipv46 &&& _4 = 0 && sv.family = AF_INET) ||
  (o.ipv46 &&& _6 = 0 && sv.family = AF_INET6) ||
  (o.tcpudp &&& _TCP = 0 && sv.type = SOCK_STREAM) ||
  (o.tcpudp &&& _UDP = 0 && sv.type = SOCK_DGRAM) ||
  (o.llmnrwsdd &&& _LLMNR = 0 && strstr sv.name "llmnr") ||
  (o.llmnrwsdd &&& _WSDD = 0 && strstr sv.name "wsdd")

/-- The `continue` test at the head of the interface loop (lines 758-770). -/
def ifa_skipped (ifname : Option String) (sv : service) (ifa : ifaddrs) : Bool :=
  (match ifa.ifa_addr with
    | none => true
    | some a => decide (a.sa_family ≠ sv.family)) ||
  decide (ifa.ifa_flags &&& IFF_LOOPBACK ≠ 0) ||
  decide (ifa.ifa_flags &&& IFF_SLAVE ≠ 0) ||
  (match ifname with
    | none => false
    | some name => decide (strcmp ifa.ifa_name name ≠ 0)) ||
  decide (strcmp ifa.ifa_name "LeafNets" = 0) ||
  decide (strncmp ifa.ifa_name "docker" 6 = 0) ||
  decide (strncmp ifa.ifa_name "veth" 4 = 0) ||
  decide (strncmp ifa.ifa_name "tun" 3 = 0) ||
  decide (strncmp ifa.ifa_name "ppp" 3 = 0) ||
  decide (strncmp ifa.ifa_name "zt" 2 = 0) ||
  (sv.mcast_addr.isSome && decide (ifa.ifa_flags &&& IFF_MULTICAST = 0))

/-- The bridge-port test (lines 773-779): taken only when no interface is configured. -/
def brport_skipped (h : Host) (ifname : Option String) (ifa : ifaddrs) : Bool :=
  ifname.isNone && h.brport ifa.ifa_name

/-- The supervisor's state while Building: the registry `endpoints` (newest first),
the readiness mask `fds` with `nfds`, the terminal marker `badep`, the descriptor
table, and two records kept for the proofs: the `open_ep` calls made, in order, and
the endpoints released with `free`. -/
structure BuildState where
  endpoints : List endpoint := []
  fds : List Nat := []
  nfds : Int := -1
  badep : Option endpoint := none
  os : OsState := {}
  calls : List (service × ifaddrs) := []
  freed : List endpoint := []

/-- Lines 797-801: link the endpoint into the registry and the readiness mask. -/
def register_ep (st : BuildState) (ep : endpoint) : BuildState :=
  { st with
      endpoints := ep :: st.endpoints,
      fds := st.fds.insert ep.sock.toNat,
      nfds := if st.nfds < ep.sock then ep.sock else st.nfds }

/-- The body of the interface loop (lines 758-802) for one record. `envs k` holds
the outcomes of the OS calls of the `k`-th `open_ep` run of this Building phase. -/
def build_ip_body (h : Host) (ifname : Option String) (envs : Nat → OpenEnv)
    (sv : service) (ifa : ifaddrs) (st : BuildState) : BuildState :=
  if ifa_skipped ifname sv ifa then st
  else if brport_skipped h ifname ifa then st
  else
    let r := open_ep (envs st.calls.length) st.os sv ifa
    let st1 : BuildState := { st with os := r.os, calls := st.calls ++ [(sv, ifa)] }
    if r.rv ≠ 0 then { st1 with freed := r.ep :: st1.freed }
    else if r.ep.sock < 0 then { st1 with freed := r.ep :: st1.freed }
    else register_ep st1 r.ep

/-- The interface loop of an IP service. -/
def build_ip (h : Host) (ifname : Option String) (envs : Nat → OpenEnv) (sv : service) :
    List ifaddrs → BuildState → BuildState
  | [], st => st
  | ifa :: rest, st => build_ip h ifname envs sv rest (build_ip_body h ifname envs sv ifa st)

/-- The synthetic record handed to `open_ep` for the kernel-link service. -/
def netlink_ifa : ifaddrs := { ifa_name := "netlink" }

/-- The service loop (lines 740-824) over the remaining services. -/
def build_services (h : Host) (o : Options) (envs : Nat → OpenEnv) (ifs : List ifaddrs) :
    List service → BuildState → BuildState
  | [], st => st
  | sv :: rest, st =>
    if service_skipped o sv then build_services h o envs ifs rest st
    else if sv.family = AF_INET ∨ sv.family = AF_INET6 then
      let st1 := build_ip h o.ifname envs sv ifs st
      if st1.badep.isSome then st1 else build_services h o envs ifs rest st1
    else if sv.family = AF_NETLINK then
      let r := open_ep (envs st.calls.length) st.os sv netlink_ifa
      let st1 : BuildState := { st with os := r.os, calls := st.calls ++ [(sv, netlink_ifa)] }
      if r.rv ≠ 0 then { st1 with badep := some r.ep }
      else if r.ep.sock < 0 then
        build_services h o envs ifs rest { st1 with freed := r.ep :: st1.freed }
      else build_services h o envs ifs rest (register_ep st1 r.ep)
    else build_services h o envs ifs rest st

/-- The Building phase from an empty registry. -/
def build (h : Host) (o : Options) (envs : Nat → OpenEnv) (ifs : List ifaddrs)
    (os : OsState) : BuildState :=
  build_services h o envs ifs services { os := os }

/-! ## The supervisor: readiness loop -/

/-- How a recv callback ends: it returns a value, or `restart_service` is called
inside it and its `longjmp` leaves the loop. -/
inductive RecvOutcome where
  | ret (v : Int)
  | jump
deriving DecidableEq, Repr

/-- One wake-up of the readiness loop: the signals delivered while the process was
blocked, the value and `errno` of `select`, the descriptors reported readable, and
the outcome of the recv callback per socket. -/
structure WaitEvent where
  sigs : List Nat := []
  n : Int
  errno : Nat := 0
  rfds : List Nat := []
  recv : Int → RecvOutcome := fun _ => RecvOutcome.ret 0

/-- The dispatch `for` (lines 838-851): returns the final `n`, the restart flag and
whether `restart_service` jumped out. -/
def dispatch (ev : WaitEvent) : List endpoint → Int → Nat → Int × Nat × Bool
  | [], n, restart => (n, restart, false)
  | ep :: rest, n, restart =>
    if n > 0 then
      if ep.sock.toNat ∉ ev.rfds then dispatch ev rest n restart
      else if ep.service.recv.isSome then
        match ev.recv ep.sock with
        | RecvOutcome.ret v =>
          if v < 0 then (n - 1, restart_service restart, true)
          else dispatch ev rest (n - 1) restart
        | RecvOutcome.jump => (n - 1, restart_service restart, true)
      else dispatch ev rest (n - 1) restart
    else (n, restart, false)

/-- How one pass through the `do ... while` body ends. -/
inductive IterResult where
  | again (restart : Nat)
  | left (n : Int) (errno : Nat) (restart : Nat)
  | jumped (restart : Nat)
deriving DecidableEq, Repr

/-- One pass of the `do ... while (n >= 0 && !restart)` loop (lines 834-852). -/
def loop_iteration (eps : List endpoint) (ev : WaitEvent) (restart : Nat) : IterResult :=
  let r0 := ev.sigs.foldl (fun f sig => sighandler sig f) restart
  let d := dispatch ev eps ev.n r0
  if d.2.2 then IterResult.jumped d.2.1
  else if d.1 ≥ 0 ∧ d.2.1 = 0 then IterResult.again d.2.1
  else IterResult.left d.1 ev.errno d.2.1

/-- The restart flag an iteration leaves. -/
def IterResult.flag : IterResult → Nat
  | IterResult.again r => r
  | IterResult.left _ _ r => r
  | IterResult.jumped r => r

/-- How the readiness loop ends on a finite run of wake-ups: it is left through the
`while` test, left through the `longjmp`, or still blocked in `select` after the last
wake-up. `waits` counts the `select` calls that returned. -/
inductive LoopResult where
  | left (n : Int) (errno : Nat) (restart : Nat) (waits : Nat)
  | jumped (restart : Nat) (waits : Nat)
  | blocked (restart : Nat) (waits : Nat)
deriving DecidableEq, Repr

/-- The readiness loop over the wake-ups `evs`. -/
def select_loop (eps : List endpoint) : List WaitEvent → Nat → Nat → LoopResult
  | [], restart, waits => LoopResult.blocked restart waits
  | ev :: evs, restart, waits =>
    match loop_iteration eps ev restart with
    | IterResult.again r => select_loop eps evs r (waits + 1)
    | IterResult.left n e r => LoopResult.left n e r (waits + 1)
    | IterResult.jumped r => LoopResult.jumped r (waits + 1)

/-- Lines 854-857: the exit status the loop leaves in `rv`. -/
def loop_rv (n : Int) (errno : Nat) : Nat :=
  if n < 0 ∧ errno ≠ EINTR then EXIT_FAILURE else 0

/-! ## The supervisor: teardown and the end of a cycle -/

/-- The `while (endpoints)` loop (lines 870-875). -/
def teardown_from : List endpoint → BuildState → BuildState
  | [], st => { st with endpoints := [] }
  | ep :: tempep, st =>
    teardown_from tempep
      { st with os := close_ep st.os ep, freed := ep :: st.freed, endpoints := tempep }

def teardown (st : BuildState) : BuildState := teardown_from st.endpoints st

/-- How a cycle of `main` ends. -/
inductive Outcome where
  | exit (status : Nat)
  | again
  | blocked
deriving DecidableEq, Repr

/-- What a cycle leaves: the supervisor's state, the restart flag, the number of
`select` calls that returned, and how the cycle ended. -/
structure CycleResult where
  st : BuildState
  restart : Nat
  waits : Nat
  outcome : Outcome

/-- From the label `end` to the end of `main` (lines 859-891). -/
def cycle_end (st : BuildState) (restart waits rv : Nat) : CycleResult :=
  let st1 := teardown st
  if st.badep.isSome then ⟨st1, restart, waits, Outcome.exit EXIT_FAILURE⟩
  else if (supervisor_clear restart).2 then
    ⟨st1, (supervisor_clear restart).1, waits, Outcome.again⟩
  else ⟨st1, restart, waits, Outcome.exit rv⟩

/-- One cycle of `main` from the label `again`: Building, the readiness loop unless
`badep` is set, teardown, and the exit or the jump back. -/
def main_cycle (h : Host) (o : Options) (envs : Nat → OpenEnv) (evs : List WaitEvent)
    (os : OsState) (restart : Nat) : CycleResult :=
  match h.getifaddrs with
  | none => ⟨{ os := os }, restart, 0, Outcome.exit EXIT_FAILURE⟩
  | some ifs =>
    let st := build h o envs ifs os
    if st.badep.isNone then
      match select_loop st.endpoints evs restart 0 with
      | LoopResult.left n e r w => cycle_end st r w (loop_rv n e)
      | LoopResult.jumped r w => cycle_end st r w 0
      | LoopResult.blocked r w => ⟨st, r, w, Outcome.blocked⟩
    else cycle_end st restart 0 0

/-! ## Option parsing and the start of `main` -/

/-- The call `strlen` on a C string. -/
def strlen (s : String) : Nat := s.length

/-- One value returned by `getopt` with its `optarg`: the cases of the `switch` in
`main`. `b bad` is `-b` with the result of `set_getresp` on its argument; `unknown`
is the value `'?'` and every other value that reaches `default`. -/
inductive Opt where
  | L | W | b (bad : Bool) | d | h | v4 | v6 | l | w | t | u
  | i (optarg : Option String)
  | N (optarg : Option String)
  | G (optarg : Option String)
  | unknown
deriving DecidableEq, Repr

/-- The variables option parsing writes. -/
structure ParseState where
  debug_L : Nat := 0
  debug_W : Nat := 0
  is_daemon : Bool := false
  ipv46 : Nat := 0
  tcpudp : Nat := 0
  llmnrwsdd : Nat := 0
  ifname : Option String := none
  ifindex : Nat := 0
  netbiosname : Option String := none
  workgroup : Option String := none
deriving DecidableEq, Repr

/-- One pass through the `switch` of the option loop (lines 633-694): `Except.error c`
is `help(prog, c, ...)`, which ends the process with status `c`. -/
def getopt_case (h : Host) (st : ParseState) : Opt → Except Nat ParseState
  | Opt.L => Except.ok { st with debug_L := st.debug_L + 1 }
  | Opt.W => Except.ok { st with debug_W := st.debug_W + 1 }
  | Opt.b bad => if bad then Except.error EXIT_FAILURE else Except.ok st
  | Opt.d => Except.ok { st with is_daemon := true }
  | Opt.h => Except.error EXIT_SUCCESS
  | Opt.v4 => Except.ok { st with ipv46 := st.ipv46 ||| _4 }
  | Opt.v6 => Except.ok { st with ipv46 := st.ipv46 ||| _6 }
  | Opt.l => Except.ok { st with llmnrwsdd := st.llmnrwsdd ||| _LLMNR }
  | Opt.w => Except.ok { st with llmnrwsdd := st.llmnrwsdd ||| _WSDD }
  | Opt.t => Except.ok { st with tcpudp := st.tcpudp ||| _TCP }
  | Opt.u => Except.ok { st with tcpudp := st.tcpudp ||| _UDP }
  | Opt.i optarg =>
    match optarg with
    | none => Except.ok st
    | some name =>
      if strlen name > 1 then
        if h.if_nametoindex name = 0 then Except.error EXIT_FAILURE
        else Except.ok { st with ifindex := h.if_nametoindex name, ifname := some name }
      else Except.ok st
  | Opt.N optarg =>
    match optarg with
    | none => Except.ok st
    | some name =>
      if strlen name > 1 then Except.ok { st with netbiosname := some name }
      else Except.ok st
  | Opt.G optarg =>
    match optarg with
    | none => Except.ok st
    | some name =>
      if strlen name > 1 then Except.ok { st with workgroup := some name }
      else Except.ok st
  | Opt.unknown => Except.error EXIT_FAILURE

/-- The `while ((opt = getopt(...)) != -1)` loop over the options of the command line. -/
def getopt_loop (h : Host) : List Opt → ParseState → Except Nat ParseState
  | [], st => Except.ok st
  | o :: rest, st =>
    match getopt_case h st o with
    | Except.error c => Except.error c
    | Except.ok st1 => getopt_loop h rest st1

/-- Lines 697-702: an empty selection enables its whole category. -/
def options_at_again (st : ParseState) : Options :=
  { ipv46 := if st.ipv46 = 0 then _4 ||| _6 else st.ipv46,
    tcpudp := if st.tcpudp = 0 then _TCP ||| _UDP else st.tcpudp,
    llmnrwsdd := if st.llmnrwsdd = 0 then _LLMNR ||| _WSDD else st.llmnrwsdd,
    ifname := st.ifname,
    ifindex := st.ifindex }

/-- The function `main` from its entry to the end of its first cycle, for the process
that runs the engine (with `-d`, the child of the `fork`). A `help` exit during option
parsing ends it before Building: the descriptor table is untouched. -/
def main (h : Host) (argv : List Opt) (envs : Nat → OpenEnv) (evs : List WaitEvent)
    (os : OsState) : CycleResult :=
  match getopt_loop h argv {} with
  | Except.error c => ⟨{ os := os }, 0, 0, Outcome.exit c⟩
  | Except.ok st => main_cycle h (options_at_again st) envs evs os 0

/-! ## The selector as a predicate -/

/-- The loop body reaches `open_ep` for this record: neither `continue` is taken. -/
def selected (h : Host) (ifname : Option String) (sv : service) (ifa : ifaddrs) : Bool :=
  !ifa_skipped ifname sv ifa && !brport_skipped h ifname ifa

/-- The string `s` begins with `p`. -/
def starts_with (s p : String) : Prop := p.toList <+: s.toList

/-! ## Descriptor accounting predicates -/

/-- Since `os0` exactly one socket was created, it is still open, it is `ep.sock`,
and its descriptor was not open in `os0`. -/
def Holds (os0 os : OsState) (ep : endpoint) : Prop :=
  0 ≤ ep.sock ∧ os.opened = ep.sock.toNat :: os0.opened ∧
  os.created = os0.created + 1 ∧ os.closed = os0.closed ∧ os.badclose = os0.badclose ∧
  ep.sock.toNat ∉ os0.opened

/-- Every socket created since `os0` was closed once: the open descriptors are those
of `os0`, creations and closes since `os0` balance, and no `close` hit a descriptor
that was not open. -/
def Released (os0 os : OsState) : Prop :=
  os.opened = os0.opened ∧ os.created + os0.closed = os.closed + os0.created ∧
  os.badclose = os0.badclose

/-- The two ways a run of the builder can end, seen from the descriptor table: success
with the new socket held by the endpoint, or no socket left open. -/
def Accounted (os0 : OsState) (r : OpenResult) : Prop :=
  (r.rv = 0 ∧ Holds os0 r.os r.ep) ∨ ((r.rv ≠ 0 ∨ r.ep.sock < 0) ∧ Released os0 r.os)

/-- The supervisor's invariant while Building from `os0`: the descriptors opened since
`os0` are the sockets of the registry, newest first, each created once and not closed,
and no two registry entries share a descriptor. -/
def Registered (os0 : OsState) (st : BuildState) : Prop :=
  (∀ ep, ep ∈ st.endpoints → 0 ≤ ep.sock) ∧
  st.os.opened = st.endpoints.map (fun ep => ep.sock.toNat) ++ os0.opened ∧
  st.os.created + os0.closed = st.os.closed + os0.created + st.endpoints.length ∧
  st.os.badclose = os0.badclose ∧
  (st.endpoints.map (fun ep => ep.sock.toNat)).Nodup

/-! ## Outcome shapes of the builder -/

/-- The endpoint's error slot holds a non-empty message. -/
def slot_populated (ep : endpoint) : Prop := ∃ msg, ep.errstr = some msg ∧ msg ≠ ""

/-- The error slot is as `calloc` left it. -/
def slot_clean (ep : endpoint) : Prop := ep.errstr = none ∧ ep._errno = 0

/-- The code a failing return of `open_ep` stores in `_errno`: a fixed code at the two
return points that precede every OS call, else the value of `errno`. -/
def recorded_errno (r : OpenResult) : Nat :=
  if r.stage = Stage.family then EINVAL
  else if r.stage = Stage.port then EADDRNOTAVAIL
  else r.os.errno

/-- Success: `open_ep` ran to its end and the endpoint holds the new socket. -/
def Ready (os0 : OsState) (r : OpenResult) : Prop :=
  r.rv = 0 ∧ r.stage = Stage.done ∧ Holds os0 r.os r.ep

/-- The address-in-use skip: return value 0, handle -1, no socket left open. -/
def Skipped (env : OpenEnv) (os0 : OsState) (r : OpenResult) : Prop :=
  r.rv = 0 ∧ r.stage = Stage.bind ∧ r.ep.sock = -1 ∧ env.bind = some EADDRINUSE ∧
  Released os0 r.os ∧ slot_populated r.ep

/-- A failure `open_ep` detected itself: return value -1, no socket left open, the
error slot populated and the error code recorded. -/
def Failed (os0 : OsState) (r : OpenResult) : Prop :=
  r.rv = -1 ∧ r.stage ≠ Stage.done ∧ r.stage ≠ Stage.init ∧ Released os0 r.os ∧
  slot_populated r.ep ∧ r.ep._errno = recorded_errno r

/-- A non-zero result of the init callback: return value -1, no socket left open, and
the error slot exactly as the callback left it. -/
def InitFailed (env : OpenEnv) (os0 : OsState) (r : OpenResult) : Prop :=
  r.rv = -1 ∧ r.stage = Stage.init ∧ Released os0 r.os ∧
  r.ep.service.init.isSome = true ∧ env.init ≠ 0 ∧
  r.ep.errstr = env.init_err.map Prod.fst ∧
  r.ep._errno = (env.init_err.map Prod.snd).getD 0

/-- The four ways a run of `open_ep` ends. -/
def Shaped (env : OpenEnv) (os0 : OsState) (r : OpenResult) : Prop :=
  (Ready os0 r ∧ env.bind = none) ∨ Skipped env os0 r ∨ Failed os0 r ∨ InitFailed env os0 r

/-! ## Tracing predicates of Building -/

/-- A call of Building is either made by an interface loop for a selected record or
is the kernel-link call on the synthetic record. -/
def call_justified (h : Host) (ifname : Option String) (p : service × ifaddrs) : Prop :=
  selected h ifname p.1 p.2 = true ∨ (p.1.family = AF_NETLINK ∧ p.2 = netlink_ifa)

/-- Every endpoint of the registry comes from a recorded `open_ep` call and carries
that call's service and interface name. -/
def Traced (st : BuildState) : Prop :=
  ∀ ep, ep ∈ st.endpoints → ∃ p, p ∈ st.calls ∧ ep.ifname = p.2.ifa_name ∧ ep.service = p.1

/-! ## Sample hosts and messages -/

/-- A host with a loopback and two Ethernet links; `eth0` has index 2, `eth1` index 3. -/
def two_link_host : Host where
  getifaddrs := some [
    { ifa_name := "lo", ifa_flags := 0x49,
      ifa_addr := some ⟨AF_INET, [127, 0, 0, 1]⟩, ifa_netmask := [255, 0, 0, 0] },
    { ifa_name := "eth0", ifa_flags := 0x1043,
      ifa_addr := some ⟨AF_INET, [192, 168, 1, 10]⟩, ifa_netmask := [255, 255, 255, 0] },
    { ifa_name := "eth1", ifa_flags := 0x1043,
      ifa_addr := some ⟨AF_INET, [10, 0, 0, 5]⟩, ifa_netmask := [255, 0, 0, 0] }]
  if_nametoindex := fun name =>
    if name = "lo" then 1 else if name = "eth0" then 2 else if name = "eth1" then 3 else 0
  if_indextoname := fun idx =>
    if idx = 1 then some "lo" else if idx = 2 then some "eth0"
    else if idx = 3 then some "eth1" else none
  brport := fun _ => false

/-- A new-address message for interface index 3 with equal creation and update stamps. -/
def newaddr_on_3 : nlmsghdr :=
  { nlmsg_type := RTM_NEWADDR, ifa_index := 3,
    attrs := [{ rta_type := IFA_CACHEINFO, cstamp := 4711, tstamp := 4711 }] }

/-- A delete-address message for interface index 3. -/
def deladdr_on_3 : nlmsghdr := { nlmsg_type := RTM_DELADDR, ifa_index := 3 }

/-- A wake-up in which `select` fails with `EINTR` and no signal handler ran. -/
def eintr_wakeup : WaitEvent := { n := -1, errno := EINTR }

/-- The first entry of `services`. -/
def wsdd_mcast_v4 : service :=
  { name := "wsdd-mcast-v4", family := AF_INET, type := SOCK_DGRAM,
    port_name := some "wsdd", port_num := 3702, mcast_addr := some "239.255.255.250",
    init := some "wsd_init", recv := some "wsd_recv", exit := some "wsd_exit" }

/-- The address record of `eth0` on `two_link_host`. -/
def eth0_record : ifaddrs :=
  { ifa_name := "eth0", ifa_flags := 0x1043,
    ifa_addr := some ⟨AF_INET, [192, 168, 1, 10]⟩, ifa_netmask := [255, 255, 255, 0] }

/-- The interface list of `two_link_host`. -/
def two_link_ifaddrs : List ifaddrs := two_link_host.getifaddrs.getD []

/-- A host whose `veth0` is a port of a bridge. -/
def bridge_host : Host where
  getifaddrs := some [
    { ifa_name := "br0", ifa_flags := 0x1043,
      ifa_addr := some ⟨AF_INET, [172, 17, 0, 1]⟩, ifa_netmask := [255, 255, 0, 0] },
    { ifa_name := "veth0", ifa_flags := 0x1043,
      ifa_addr := some ⟨AF_INET, [172, 17, 0, 2]⟩, ifa_netmask := [255, 255, 0, 0] }]
  if_nametoindex := fun name => if name = "br0" then 1 else if name = "veth0" then 2 else 0
  if_indextoname := fun idx =>
    if idx = 1 then some "br0" else if idx = 2 then some "veth0" else none
  brport := fun name => decide (name = "veth0")

/-- The address record of `veth0` on `bridge_host`. -/
def veth0_record : ifaddrs :=
  { ifa_name := "veth0", ifa_flags := 0x1043,
    ifa_addr := some ⟨AF_INET, [172, 17, 0, 2]⟩, ifa_netmask := [255, 255, 0, 0] }

/-- The interface list of `bridge_host`. -/
def bridge_ifaddrs : List ifaddrs := bridge_host.getifaddrs.getD []

/-- The selections after `-i veth0` on `bridge_host`. -/
def opts_i_veth0 : Options := { ifname := some "veth0", ifindex := 2 }

/-- A bridge host whose port is named `eth0`, and the selections after `-i eth0`. -/
def eth_bridge_host : Host where
  getifaddrs := some [eth0_record]
  if_nametoindex := fun name => if name = "eth0" then 2 else 0
  if_indextoname := fun idx => if idx = 2 then some "eth0" else none
  brport := fun name => decide (name = "eth0")

def opts_i_eth0 : Options := { ifname := some "eth0", ifindex := 2 }

end Wsdd2

namespace Wsdd2

/-! ## Reply-source resolver -/

theorem mask_loop_eq_zero_iff (_if _nm _sa : List Nat) (k : Nat) : ∀ i,
    mask_loop _if _nm _sa i k = 0 ↔
      ∀ j, i ≤ j → j < i + k →
        byte_at _if j &&& byte_at _nm j = byte_at _sa j &&& byte_at _nm j := by
  induction k with
  | zero => intro i; simp [mask_loop]; intro j h1 h2; omega
  | succ k ih =>
    intro i
    simp only [mask_loop]
    by_cases hb : byte_at _if i &&& byte_at _nm i = byte_at _sa i &&& byte_at _nm i
    · simp only [hb, ne_eq, not_true_eq_false, if_false, ih]
      constructor
      · intro h j h1 h2
        by_cases hj : j = i
        · subst hj; exact hb
        · exact h j (by omega) (by omega)
      · intro h j h1 h2
        exact h j (by omega) (by omega)
    · simp only [ne_eq, hb, not_false_eq_true, if_true]
      constructor
      · intro h; simp at h
      · intro h; exact absurd (h i (le_refl _) (by omega)) hb

theorem mask_loop_values (_if _nm _sa : List Nat) (k : Nat) : ∀ i,
    mask_loop _if _nm _sa i k = 0 ∨ mask_loop _if _nm _sa i k = -1 := by
  induction k with
  | zero => intro i; simp [mask_loop]
  | succ k ih =>
    intro i
    simp only [mask_loop]
    split
    · right; rfl
    · exact ih _

theorem on_link_iff_step (h : Host) (ifindex : Nat) (sa : sockaddr) (alen : Nat)
    (e : ifaddrs) (a : sockaddr) (ha : e.ifa_addr = some a) :
    on_link h ifindex sa alen e = true ↔
      (sa.sa_family = a.sa_family ∧
        ¬ (ifindex ≠ 0 ∧ h.if_nametoindex e.ifa_name ≠ ifindex) ∧
        mask_loop a.addr e.ifa_netmask sa.addr 0 alen = 0) := by
  simp only [on_link, ha, Bool.and_eq_true, decide_eq_true_eq, mask_loop_eq_zero_iff]
  constructor
  · rintro ⟨⟨h1, h2⟩, h3⟩
    refine ⟨h1.symm, ?_, ?_⟩
    · rintro ⟨h4, h5⟩; exact h5 (h2 h4)
    · intro j _ hj; exact h3 j (by omega)
  · rintro ⟨h1, h2, h3⟩
    refine ⟨⟨h1.symm, ?_⟩, ?_⟩
    · intro h4; by_contra h5; exact h2 ⟨h4, h5⟩
    · intro i hi; exact h3 i (Nat.zero_le _) (by omega)

/-- The interface loop entered with `rv = -1` stops at the first on-link record. -/
theorem connected_if_loop_find (h : Host) (ifindex : Nat) (sa : sockaddr) (alen : Nat)
    (hlen : addr_len sa.sa_family = some alen) : ∀ (l : List ifaddrs) (ci : sockaddr),
    connected_if_loop h ifindex sa l (-1) ci =
      match l.find? (on_link h ifindex sa alen) with
      | some e => (0, { ci with addr := memcpy ci.addr (ifa_bytes e) alen })
      | none => (-1, ci) := by
  intro l
  induction l with
  | nil => intro ci; simp [connected_if_loop]
  | cons e rest ih =>
    intro ci
    cases ha : e.ifa_addr with
    | none =>
      have hno : on_link h ifindex sa alen e = false := by simp [on_link, ha]
      simp only [connected_if_loop, ha, List.find?_cons, hno, ih]
    | some a =>
      have hiff := on_link_iff_step h ifindex sa alen e a ha
      by_cases hp : on_link h ifindex sa alen e = true
      · obtain ⟨h1, h2, h3⟩ := hiff.mp hp
        simp only [connected_if_loop, ha, List.find?_cons, hp, hlen, h3, ifa_bytes]
        simp [h1, h2]
      · have hp2 : on_link h ifindex sa alen e = false := by simpa using hp
        simp only [connected_if_loop, ha, List.find?_cons, hp2, hlen]
        by_cases h1 : sa.sa_family = a.sa_family
        · by_cases h2 : (ifindex ≠ 0 ∧ h.if_nametoindex e.ifa_name ≠ ifindex)
          · simp only [h1, ne_eq, not_true_eq_false, if_false]
            rw [if_pos h2]; exact ih ci
          · have h3 : mask_loop a.addr e.ifa_netmask sa.addr 0 alen ≠ 0 := by
              intro h3; exact hp (hiff.mpr ⟨h1, h2, h3⟩)
            have h4 : mask_loop a.addr e.ifa_netmask sa.addr 0 alen = -1 := by
              rcases mask_loop_values a.addr e.ifa_netmask sa.addr alen 0 with h5 | h5
              · exact absurd h5 h3
              · exact h5
            simp only [h1, ne_eq, not_true_eq_false, if_false]
            rw [if_neg h2]
            simp only [h4]
            simpa using ih ci
        · simp only [ne_eq, h1, not_false_eq_true, if_true]; exact ih ci

/-- C2. Reply-source resolver: for a remote address `sa` of family IPv4 or IPv6 and any
interface list `l`, `connected_if` returns `0` and copies into `ci` the address of the
first record of `l` that is on-link (same family, configured index when one is set,
equal under the mask on every address byte); it returns `-1` with `EADDRNOTAVAIL`
exactly when no record of `l` is on-link. -/
theorem connected_if_first_on_link (h : Host) (ifindex : Nat) (sa ci : sockaddr)
    (errno : Nat) (l : List ifaddrs) (alen : Nat)
    (hfam : sa.sa_family = AF_INET ∨ sa.sa_family = AF_INET6)
    (hlist : h.getifaddrs = some l)
    (halen : alen = if sa.sa_family = AF_INET then 4 else 16) :
    (∀ e, l.find? (on_link h ifindex sa alen) = some e →
        connected_if h ifindex sa ci errno =
          (0, { sa_family := sa.sa_family, addr := memcpy ci.addr (ifa_bytes e) alen }, errno) ∧
        ((ifa_bytes e).length = alen → ci.addr.length ≤ alen →
          (connected_if h ifindex sa ci errno).2.1.addr = ifa_bytes e)) ∧
    (l.find? (on_link h ifindex sa alen) = none →
        connected_if h ifindex sa ci errno =
          (-1, { sa_family := sa.sa_family, addr := ci.addr }, EADDRNOTAVAIL)) ∧
    (((connected_if h ifindex sa ci errno).1 = -1 ∧
        (connected_if h ifindex sa ci errno).2.2 = EADDRNOTAVAIL) ↔
      ∀ e, e ∈ l → on_link h ifindex sa alen e = false) ∧
    ((connected_if h ifindex sa ci errno).1 = 0 ↔
      ∃ e, e ∈ l ∧ on_link h ifindex sa alen e = true) := by
  have hlen : addr_len sa.sa_family = some alen := by
    rcases hfam with hf | hf <;> simp [addr_len, hf, halen, AF_INET, AF_INET6]
  have hloop := connected_if_loop_find h ifindex sa alen hlen l
    { ci with sa_family := sa.sa_family }
  cases hfind : l.find? (on_link h ifindex sa alen) with
  | none =>
    rw [hfind] at hloop
    have hres : connected_if h ifindex sa ci errno =
        (-1, { sa_family := sa.sa_family, addr := ci.addr }, EADDRNOTAVAIL) := by
      simp [connected_if, hlist, hloop]
    have hall : ∀ e, e ∈ l → on_link h ifindex sa alen e = false := by
      intro e he
      have := List.find?_eq_none.mp hfind e he
      simpa using this
    refine ⟨(by intro e he; cases he), fun _ => hres, ?_, ?_⟩
    · rw [hres]; simp; exact hall
    · rw [hres]; simp; exact hall
  | some e0 =>
    rw [hfind] at hloop
    have hres : connected_if h ifindex sa ci errno =
        (0, { sa_family := sa.sa_family, addr := memcpy ci.addr (ifa_bytes e0) alen },
          errno) := by
      simp [connected_if, hlist, hloop]
    have hmem : e0 ∈ l := List.mem_of_find?_eq_some hfind
    have hp : on_link h ifindex sa alen e0 = true := List.find?_some hfind
    refine ⟨?_, (by intro hn; cases hn), ?_, ?_⟩
    · intro e he
      cases he
      refine ⟨hres, ?_⟩
      intro h1 h2
      rw [hres]
      simp only [memcpy]
      rw [List.drop_of_length_le h2, List.append_nil]
      apply List.ext_getElem
      · simp [h1]
      · intro i hi1 hi2
        simp [byte_at, List.getElem?_eq_getElem hi2]
    · rw [hres]
      simp
      exact ⟨e0, hmem, hp⟩
    · rw [hres]
      simp
      exact ⟨e0, hmem, hp⟩

theorem connected_if_first_on_link_witness :
    connected_if
        { getifaddrs := some [
            { ifa_name := "lo", ifa_flags := 0x8,
              ifa_addr := some ⟨AF_INET, [127, 0, 0, 1]⟩, ifa_netmask := [255, 0, 0, 0] },
            { ifa_name := "eth0", ifa_flags := 0x1043,
              ifa_addr := some ⟨AF_INET, [192, 168, 1, 10]⟩,
              ifa_netmask := [255, 255, 255, 0] }],
          if_nametoindex := fun _ => 0, if_indextoname := fun _ => none,
          brport := fun _ => false }
        0 ⟨AF_INET, [192, 168, 1, 77]⟩ ⟨0, [0, 0, 0, 0]⟩ 0
      = (0, ⟨AF_INET, [192, 168, 1, 10]⟩, 0) := by
  have h := (connected_if_first_on_link
    { getifaddrs := some [
        { ifa_name := "lo", ifa_flags := 0x8,
          ifa_addr := some ⟨AF_INET, [127, 0, 0, 1]⟩, ifa_netmask := [255, 0, 0, 0] },
        { ifa_name := "eth0", ifa_flags := 0x1043,
          ifa_addr := some ⟨AF_INET, [192, 168, 1, 10]⟩,
          ifa_netmask := [255, 255, 255, 0] }],
      if_nametoindex := fun _ => 0, if_indextoname := fun _ => none,
      brport := fun _ => false }
    0 ⟨AF_INET, [192, 168, 1, 77]⟩ ⟨0, [0, 0, 0, 0]⟩ 0 _ 4
    (Or.inl rfl) rfl (by decide)).1
    { ifa_name := "eth0", ifa_flags := 0x1043,
      ifa_addr := some ⟨AF_INET, [192, 168, 1, 10]⟩, ifa_netmask := [255, 255, 255, 0] }
    (by decide)
  exact h.1.trans (by decide)

/-! ## Link monitor -/

/-- C3. At the failing input the code does the opposite of the new-address rule: with
`-i eth0` configured (index 2, which `eth0` still holds), a new-address message for
index 3 (`eth1`) makes `is_new_addr` return `true` and overwrite the stored index with 3. -/
theorem is_new_addr_other_interface_accepted :
    two_link_host.if_indextoname 2 = some "eth0" ∧
    two_link_host.if_indextoname 3 = some "eth1" ∧
    is_new_addr two_link_host (some "eth0") 2 newaddr_on_3 = (true, 3) := by
  decide

/-- C4. At the failing input the delete-address path applies no interface filter: with
`-i eth0` configured (index 2), a batch whose only message is a delete-address for
index 3 makes `netlink_recv` call `restart_service` (flag `1`, jump taken). -/
theorem netlink_recv_deladdr_unfiltered :
    (netlink_recv two_link_host (some "eth0") (some [deladdr_on_3]) 0 2).scan =
      { restart := 1, ifindex := 2, jumped := true } := by
  decide

/-! ## Restart flag -/

/-- C5, counterexample. The handler overwrites the flag whatever it holds: `SIGHUP`
takes it from 2 (terminate) to 1, a change outside 0 → 1, 0 → 2, 1 → 0. -/
theorem restart_flag_leaves_terminate :
    FlagStep (Writer.sighandler SIGHUP) 2 1 ∧
    ¬ (∀ w f g, FlagStep w f g → f ≠ g →
        (f = 0 ∧ g = 1) ∨ (f = 0 ∧ g = 2) ∨ (f = 1 ∧ g = 0)) := by
  have hstep : FlagStep (Writer.sighandler SIGHUP) 2 1 :=
    FlagStep.signal SIGHUP 2 (Or.inl rfl)
  refine ⟨hstep, ?_⟩
  intro hall
  have := hall _ _ _ hstep (by decide)
  omega

/-- C5, amended. From a flag value in 0..2 every write leaves a value in 0..2; the
value changes are among 0 → 1, 0 → 2, 1 → 0, 1 → 2 and 2 → 1; a change to 0 is made
only by the supervisor and only from 1, so the flag never goes from 2 to 0. -/
theorem restart_flag_steps (w : Writer) (f g : Nat) (hstep : FlagStep w f g) (hf : f ≤ 2) :
    g ≤ 2 ∧
    (f ≠ g → (f = 0 ∧ g = 1) ∨ (f = 0 ∧ g = 2) ∨ (f = 1 ∧ g = 0) ∨
              (f = 1 ∧ g = 2) ∨ (f = 2 ∧ g = 1)) ∧
    (f ≠ g → g = 0 → w = Writer.supervisor ∧ f = 1) ∧
    (f = 2 → g ≠ 0) := by
  cases hstep with
  | signal sig f hsig =>
    have hv : sighandler sig f = 1 ∨ sighandler sig f = 2 := by
      unfold sighandler; split <;> simp
    refine ⟨by omega, ?_, ?_, ?_⟩
    · intro hne; omega
    · intro _ h0; omega
    · intro _; omega
  | restart f =>
    simp only [restart_service]
    refine ⟨by omega, ?_, ?_, ?_⟩
    · intro hne
      rcases (by omega : f = 0 ∨ f = 2) with h | h <;> simp [h]
    · intro _ h0; exact absurd h0 (by decide)
    · intro _; decide
  | clear f =>
    by_cases h1 : f = 1
    · subst h1
      simp [supervisor_clear]
    · simp only [supervisor_clear, h1, if_false]
      refine ⟨hf, ?_, ?_, ?_⟩
      · intro hne; exact absurd rfl hne
      · intro hne; exact absurd rfl hne
      · intro h2; omega

theorem restart_flag_steps_witness :
    (0 : Nat) ≤ 2 ∧ sighandler SIGTERM 0 ≤ 2 :=
  ⟨by decide,
    (restart_flag_steps (Writer.sighandler SIGTERM) 0 (sighandler SIGTERM 0)
      (FlagStep.signal SIGTERM 0 (Or.inr (Or.inr rfl))) (by decide)).1⟩

/-! ## Readiness loop -/

theorem dispatch_of_neg (ev : WaitEvent) (eps : List endpoint) (n : Int) (r : Nat)
    (hn : n < 0) : dispatch ev eps n r = (n, r, false) := by
  cases eps with
  | nil => rfl
  | cons ep rest =>
    have h : ¬ n > 0 := by omega
    simp [dispatch, h]

theorem dispatch_nonneg (ev : WaitEvent) : ∀ (eps : List endpoint) (n : Int) (r : Nat),
    0 ≤ n → 0 ≤ (dispatch ev eps n r).1 := by
  intro eps
  induction eps with
  | nil => intro n r hn; simpa [dispatch] using hn
  | cons ep rest ih =>
    intro n r hn
    simp only [dispatch]
    split
    · rename_i hpos
      split
      · exact ih n r hn
      · split
        · split
          · split
            · show 0 ≤ n - 1; omega
            · exact ih (n - 1) r (by omega)
          · show 0 ≤ n - 1; omega
        · exact ih (n - 1) r (by omega)
    · exact hn

theorem dispatch_flag (ev : WaitEvent) : ∀ (eps : List endpoint) (n : Int) (r : Nat),
    ((dispatch ev eps n r).2.2 = true → (dispatch ev eps n r).2.1 = 1) ∧
    ((dispatch ev eps n r).2.2 = false → (dispatch ev eps n r).2.1 = r) := by
  intro eps
  induction eps with
  | nil => intro n r; simp [dispatch]
  | cons ep rest ih =>
    intro n r
    simp only [dispatch]
    split
    · split
      · exact ih n r
      · split
        · split
          · split
            · simp [restart_service]
            · exact ih (n - 1) r
          · simp [restart_service]
        · exact ih (n - 1) r
    · simp

/-- C6, counterexample. A wait that fails with `EINTR` while the restart flag is 0
leaves the loop (the flag stays 0, the wait did not fail with another error), and the
cycle ends the process with status 0 after that single wait. -/
theorem eintr_wait_leaves_loop :
    loop_iteration [] eintr_wakeup 0 = IterResult.left (-1) EINTR 0 ∧
    ¬ ((∀ r, loop_iteration [] eintr_wakeup 0 ≠ IterResult.again r) ↔
        ((loop_iteration [] eintr_wakeup 0).flag ≠ 0 ∨
          (eintr_wakeup.n < 0 ∧ eintr_wakeup.errno ≠ EINTR))) ∧
    (main_cycle two_link_host {} (fun _ => {}) [eintr_wakeup, { n := 0 }] {} 0).outcome =
      Outcome.exit 0 ∧
    (main_cycle two_link_host {} (fun _ => {}) [eintr_wakeup, { n := 0 }] {} 0).waits = 1 := by
  have h1 : loop_iteration [] eintr_wakeup 0 = IterResult.left (-1) EINTR 0 := by decide
  refine ⟨h1, ?_, by decide, by decide⟩
  rw [h1]
  intro hiff
  have h2 := hiff.mp (by intro r hr; cases hr)
  revert h2
  decide

/-- C6, amended. A pass of the select loop goes round again exactly when `select`
returned a non-negative value and the restart flag is 0 after the pass; a failed wait
leaves the loop whatever its `errno` (`EINTR` included) and whatever follows; a jump
out of the loop has set the flag to 1; the exit status the loop leaves is 1 exactly
when the wait failed with an error other than `EINTR`; and a cycle of `main` whose
Building set no `badep` exits with status 1 only after such a failed wait. -/
theorem readiness_loop_exit (eps : List endpoint) (ev : WaitEvent) (restart : Nat) :
    ((∃ r, loop_iteration eps ev restart = IterResult.again r) ↔
      (0 ≤ ev.n ∧ (loop_iteration eps ev restart).flag = 0)) ∧
    (ev.n < 0 → ∀ evs waits,
      select_loop eps (ev :: evs) restart waits =
        LoopResult.left ev.n ev.errno
          (ev.sigs.foldl (fun f sig => sighandler sig f) restart) (waits + 1)) ∧
    (∀ r, loop_iteration eps ev restart = IterResult.jumped r → r = 1 ∧ 0 < ev.n) ∧
    (∀ n e r, loop_iteration eps ev restart = IterResult.left n e r →
      (loop_rv n e = EXIT_FAILURE ↔ (ev.n < 0 ∧ ev.errno ≠ EINTR))) ∧
    (∀ h o envs evs os ifs, h.getifaddrs = some ifs →
      (build h o envs ifs os).badep = none →
      (main_cycle h o envs evs os restart).outcome = Outcome.exit EXIT_FAILURE →
      ∃ n e r w, select_loop (build h o envs ifs os).endpoints evs restart 0 =
          LoopResult.left n e r w ∧ n < 0 ∧ e ≠ EINTR) := by
  have hflag := dispatch_flag ev eps ev.n
    (ev.sigs.foldl (fun f sig => sighandler sig f) restart)
  have hneg : ev.n < 0 → loop_iteration eps ev restart =
      IterResult.left ev.n ev.errno
        (ev.sigs.foldl (fun f sig => sighandler sig f) restart) := by
    intro hn
    have hlt : ¬ (ev.n ≥ 0) := by omega
    simp [loop_iteration, dispatch_of_neg ev eps ev.n _ hn, hlt]
  refine ⟨?_, ?_, ?_, ?_, ?_⟩
  rotate_left 4
  · intro h o envs evs os ifs hget hb hout
    unfold main_cycle at hout
    simp only [hget, hb, Option.isNone_none, if_true] at hout
    cases hsel : select_loop (build h o envs ifs os).endpoints evs restart 0 with
    | left n e r w =>
      rw [hsel] at hout
      simp only [cycle_end, hb, Option.isSome_none, Bool.false_eq_true, if_false] at hout
      refine ⟨n, e, r, w, rfl, ?_⟩
      split at hout
      · cases hout
      · simp only [Outcome.exit.injEq] at hout
        unfold loop_rv at hout
        split at hout
        · assumption
        · simp [EXIT_FAILURE] at hout
    | jumped r w =>
      rw [hsel] at hout
      simp only [cycle_end, hb, Option.isSome_none, Bool.false_eq_true, if_false] at hout
      split at hout
      · cases hout
      · simp [EXIT_FAILURE] at hout
    | blocked r w =>
      rw [hsel] at hout
      cases hout
  · by_cases hn : ev.n < 0
    · rw [hneg hn]
      simp
      intro h0; omega
    · have hn0 : 0 ≤ ev.n := by omega
      have hd := dispatch_nonneg ev eps ev.n
        (ev.sigs.foldl (fun f sig => sighandler sig f) restart) hn0
      unfold loop_iteration
      simp only []
      cases hj : (dispatch ev eps ev.n
          (List.foldl (fun f sig => sighandler sig f) restart ev.sigs)).2.2 with
      | true =>
        have h1 := hflag.1 hj
        simp [IterResult.flag, h1]
      | false =>
        by_cases hz : (dispatch ev eps ev.n
            (List.foldl (fun f sig => sighandler sig f) restart ev.sigs)).2.1 = 0
        · simp [IterResult.flag, hz, hd, hn0]
        · simp [IterResult.flag, hz]
  · intro hn evs waits
    simp [select_loop, hneg hn]
  · intro r hr
    by_cases hn : ev.n < 0
    · rw [hneg hn] at hr; cases hr
    · unfold loop_iteration at hr
      simp only [] at hr
      cases hj : (dispatch ev eps ev.n
          (List.foldl (fun f sig => sighandler sig f) restart ev.sigs)).2.2 with
      | true =>
        have h1 := hflag.1 hj
        rw [hj] at hr
        simp at hr
        refine ⟨by omega, ?_⟩
        by_contra hpos
        have hz : ev.n = 0 := by omega
        cases eps with
        | nil => simp [dispatch] at hj
        | cons ep rest => simp [dispatch, hz] at hj
      | false =>
        rw [hj] at hr
        simp at hr
        split at hr <;> cases hr
  · intro n e r hr
    by_cases hn : ev.n < 0
    · rw [hneg hn] at hr
      cases hr
      simp [loop_rv, hn, EXIT_FAILURE]
    · have hn0 : 0 ≤ ev.n := by omega
      have hd := dispatch_nonneg ev eps ev.n
        (ev.sigs.foldl (fun f sig => sighandler sig f) restart) hn0
      unfold loop_iteration at hr
      simp only [] at hr
      split at hr
      · cases hr
      · split at hr
        · cases hr
        · cases hr
          have h2 : ¬ ((dispatch ev eps ev.n
              (List.foldl (fun f sig => sighandler sig f) restart ev.sigs)).1 < 0) := by omega
          simp [loop_rv, h2, hn, EXIT_FAILURE]

/-! ## C strings -/

theorem strcmp_chars_eq_zero_iff : ∀ (a b : List Char), strcmp_chars a b = 0 ↔ a = b := by
  intro a
  induction a with
  | nil => intro b; cases b <;> simp [strcmp_chars]
  | cons x xs ih =>
    intro b
    cases b with
    | nil => simp [strcmp_chars]
    | cons y ys =>
      simp only [strcmp_chars]
      by_cases hxy : x = y
      · simp [hxy, ih]
      · simp only [hxy, if_false, List.cons.injEq, false_and, iff_false]
        split <;> decide

theorem strcmp_eq_zero_iff (a b : String) : strcmp a b = 0 ↔ a = b := by
  unfold strcmp
  rw [strcmp_chars_eq_zero_iff]
  constructor
  · intro h; exact String.ext h
  · intro h; rw [h]

theorem strncmp_chars_eq_zero_iff : ∀ (p a : List Char),
    strncmp_chars a p p.length = 0 ↔ p <+: a := by
  intro p
  induction p with
  | nil => intro a; simp [strncmp_chars]
  | cons c cs ih =>
    intro a
    cases a with
    | nil => simp [strncmp_chars]
    | cons x xs =>
      simp only [List.length_cons, strncmp_chars]
      by_cases hxc : x = c
      · subst hxc
        simp [ih, List.cons_prefix_cons]
      · have hcx : ¬ c = x := fun h => hxc h.symm
        simp only [hxc, if_false, List.cons_prefix_cons, hcx, false_and, iff_false]
        split <;> decide

theorem strncmp_eq_zero_iff (s p : String) (n : Nat) (hn : n = p.length) :
    strncmp s p n = 0 ↔ starts_with s p := by
  subst hn
  unfold strncmp starts_with
  exact strncmp_chars_eq_zero_iff p.toList s.toList

/-! ## Link monitor: general behaviour -/

/-- What `is_new_addr` does with a new-address message whose index differs from the
stored one: it looks up the name of the stored index, not of the message's index. -/
theorem is_new_addr_index_mismatch (h : Host) (name : String) (ifindex : Nat)
    (nh : nlmsghdr) (htype : nh.nlmsg_type = RTM_NEWADDR) (hset : ifindex ≠ 0)
    (hne : nh.ifa_index ≠ ifindex) :
    is_new_addr h (some name) ifindex nh =
      if h.if_indextoname ifindex = some name then (cacheinfo_loop nh.attrs, nh.ifa_index)
      else (false, ifindex) := by
  unfold is_new_addr
  simp only [htype, ne_eq, not_true_eq_false, if_false, hset, not_false_eq_true, hne,
    and_self, if_true]
  cases hidx : h.if_indextoname ifindex with
  | none => simp
  | some buf =>
    simp only [strcmp_eq_zero_iff, Option.some.injEq]
    by_cases hb : buf = name
    · simp [hb]
    · simp [hb]

/-- A delete-address message reached by the scan triggers the restart, whatever
interface is configured. -/
theorem netlink_loop_deladdr (h : Host) (ifname : Option String) (nh : nlmsghdr)
    (post : List nlmsghdr) (htype : nh.nlmsg_type = RTM_DELADDR) :
    ∀ (pre : List nlmsghdr) (restart ifindex : Nat),
    (∀ m, m ∈ pre → m.nlmsg_type ≠ NLMSG_DONE) →
    (netlink_loop h ifname (pre ++ nh :: post) restart ifindex).jumped = true ∧
    (netlink_loop h ifname (pre ++ nh :: post) restart ifindex).restart = 1 := by
  intro pre
  induction pre with
  | nil =>
    intro restart ifindex _
    have hd2 : ¬ RTM_DELADDR = NLMSG_DONE := by decide
    simp [netlink_loop, htype, hd2, restart_service]
  | cons m rest ih =>
    intro restart ifindex hpre
    have hm := hpre m (List.mem_cons_self _ _)
    have hrest := ih restart (is_new_addr h ifname ifindex m).2
      (fun x hx => hpre x (List.mem_cons_of_mem _ hx))
    simp only [List.cons_append, netlink_loop, hm, if_false]
    split
    · simp [restart_service]
    · exact hrest

/-! ## Interface selector and Building -/

/-- The head-of-loop test in the words of the specification. -/
theorem ifa_skipped_eq_false_iff (ifname : Option String) (sv : service) (ifa : ifaddrs) :
    ifa_skipped ifname sv ifa = false ↔
      ((∃ a, ifa.ifa_addr = some a ∧ a.sa_family = sv.family) ∧
       ifa.ifa_flags &&& IFF_LOOPBACK = 0 ∧
       ifa.ifa_flags &&& IFF_SLAVE = 0 ∧
       (ifname = none ∨ ifname = some ifa.ifa_name) ∧
       ifa.ifa_name ≠ "LeafNets" ∧
       ¬ starts_with ifa.ifa_name "docker" ∧
       ¬ starts_with ifa.ifa_name "veth" ∧
       ¬ starts_with ifa.ifa_name "tun" ∧
       ¬ starts_with ifa.ifa_name "ppp" ∧
       ¬ starts_with ifa.ifa_name "zt" ∧
       (sv.mcast_addr = none ∨ ifa.ifa_flags &&& IFF_MULTICAST ≠ 0)) := by
  have e1 := strncmp_eq_zero_iff ifa.ifa_name "docker" 6 (by decide)
  have e2 := strncmp_eq_zero_iff ifa.ifa_name "veth" 4 (by decide)
  have e3 := strncmp_eq_zero_iff ifa.ifa_name "tun" 3 (by decide)
  have e4 := strncmp_eq_zero_iff ifa.ifa_name "ppp" 3 (by decide)
  have e5 := strncmp_eq_zero_iff ifa.ifa_name "zt" 2 (by decide)
  have e6 := strcmp_eq_zero_iff ifa.ifa_name "LeafNets"
  have hA : (match ifa.ifa_addr with
      | none => true
      | some a => decide (a.sa_family ≠ sv.family)) = false ↔
      ∃ a, ifa.ifa_addr = some a ∧ a.sa_family = sv.family := by
    cases ifa.ifa_addr with
    | none => simp
    | some a => simp
  have hN : (match ifname with
      | none => false
      | some name => decide (strcmp ifa.ifa_name name ≠ 0)) = false ↔
      (ifname = none ∨ ifname = some ifa.ifa_name) := by
    cases ifname with
    | none => simp
    | some name =>
      simp [strcmp_eq_zero_iff]
      constructor <;> intro h <;> exact h.symm
  have hM : (sv.mcast_addr.isSome && decide (ifa.ifa_flags &&& IFF_MULTICAST = 0)) = false ↔
      (sv.mcast_addr = none ∨ ifa.ifa_flags &&& IFF_MULTICAST ≠ 0) := by
    cases sv.mcast_addr with
    | none => simp
    | some g => simp
  unfold ifa_skipped
  simp only [Bool.or_eq_false_iff, hA, hN, hM, decide_eq_false_iff_not, e1, e2, e3, e4, e5, e6,
    ne_eq, not_not, and_assoc]

theorem build_ip_body_calls (h : Host) (ifname : Option String) (envs : Nat → OpenEnv)
    (sv : service) (ifa : ifaddrs) (st : BuildState) :
    (build_ip_body h ifname envs sv ifa st).calls =
        st.calls ++ (if selected h ifname sv ifa then [(sv, ifa)] else []) ∧
    (build_ip_body h ifname envs sv ifa st).badep = st.badep := by
  unfold build_ip_body selected
  cases h1 : ifa_skipped ifname sv ifa
  · cases h2 : brport_skipped h ifname ifa
    · simp only [Bool.false_eq_true, if_false, Bool.not_false, Bool.and_self, if_true]
      split
      · simp
      · split <;> simp [register_ep]
    · simp
  · simp

theorem build_ip_calls (h : Host) (ifname : Option String) (envs : Nat → OpenEnv)
    (sv : service) : ∀ (ifs : List ifaddrs) (st : BuildState),
    (build_ip h ifname envs sv ifs st).calls =
        st.calls ++ (ifs.filter (selected h ifname sv)).map (fun ifa => (sv, ifa)) ∧
    (build_ip h ifname envs sv ifs st).badep = st.badep := by
  intro ifs
  induction ifs with
  | nil => intro st; simp [build_ip]
  | cons ifa rest ih =>
    intro st
    have hb := build_ip_body_calls h ifname envs sv ifa st
    have hr := ih (build_ip_body h ifname envs sv ifa st)
    simp only [build_ip]
    refine ⟨?_, by rw [hr.2, hb.2]⟩
    rw [hr.1, hb.1]
    cases hs : selected h ifname sv ifa <;> simp [List.filter_cons, hs]

/-- The calls the interface loops of a run of IP services make, in order. -/
theorem build_services_ip (h : Host) (o : Options) (envs : Nat → OpenEnv)
    (ifs : List ifaddrs) : ∀ (svs rest : List service) (st : BuildState),
    (∀ sv, sv ∈ svs → sv.family = AF_INET ∨ sv.family = AF_INET6) → st.badep = none →
    ∃ st1 : BuildState,
      build_services h o envs ifs (svs ++ rest) st = build_services h o envs ifs rest st1 ∧
      st1.badep = none ∧
      st1.calls = st.calls ++ svs.flatMap (fun sv =>
        if service_skipped o sv then []
        else (ifs.filter (selected h o.ifname sv)).map (fun ifa => (sv, ifa))) := by
  intro svs
  induction svs with
  | nil => intro rest st _ hb; exact ⟨st, rfl, hb, by simp⟩
  | cons sv more ih =>
    intro rest st hip hb
    have hfam := hip sv (List.mem_cons_self _ _)
    have hmore : ∀ x, x ∈ more → x.family = AF_INET ∨ x.family = AF_INET6 :=
      fun x hx => hip x (List.mem_cons_of_mem _ hx)
    cases hskip : service_skipped o sv with
    | true =>
      obtain ⟨st1, h1, h2, h3⟩ := ih rest st hmore hb
      refine ⟨st1, ?_, h2, ?_⟩
      · simp only [List.cons_append, build_services, hskip, if_true]
        exact h1
      · simp [h3, List.flatMap_cons, hskip]
    | false =>
      have hc := build_ip_calls h o.ifname envs sv ifs st
      have hb1 : (build_ip h o.ifname envs sv ifs st).badep = none := by rw [hc.2, hb]
      obtain ⟨st1, h1, h2, h3⟩ := ih rest (build_ip h o.ifname envs sv ifs st) hmore hb1
      refine ⟨st1, ?_, h2, ?_⟩
      · simp only [List.cons_append, build_services, hskip, hfam, if_true]
        simp only [hb1, Option.isSome_none]
        exact h1
      · simp [h3, hc.1, List.flatMap_cons, hskip]

/-- The kernel-link step adds no call for an IP service. -/
theorem build_services_netlink_calls (h : Host) (o : Options) (envs : Nat → OpenEnv)
    (ifs : List ifaddrs) (nl : service) (st : BuildState) (hnl : nl.family = AF_NETLINK)
    (p : service × ifaddrs) (hp : p.1.family ≠ AF_NETLINK) :
    p ∈ (build_services h o envs ifs [nl] st).calls ↔ p ∈ st.calls := by
  have hne : p ≠ (nl, netlink_ifa) := by
    intro he; apply hp; rw [he]; exact hnl
  by_cases hs : service_skipped o nl = true
  · simp only [build_services, hs, if_true]
  · have h5 : ¬ (AF_NETLINK = AF_INET ∨ AF_NETLINK = AF_INET6) := by decide
    simp only [build_services, hs, hnl, h5, if_true, if_false]
    split_ifs <;> simp [hne, register_ep]

/-- Which `open_ep` calls Building makes for an IP service that passed the filters. -/
theorem build_calls_mem (h : Host) (o : Options) (envs : Nat → OpenEnv)
    (ifs : List ifaddrs) (os : OsState) (sv : service) (ifa : ifaddrs)
    (hsv : sv ∈ services) (hfam : sv.family = AF_INET ∨ sv.family = AF_INET6)
    (hpass : service_skipped o sv = false) :
    (sv, ifa) ∈ (build h o envs ifs os).calls ↔
      (ifa ∈ ifs ∧ selected h o.ifname sv ifa = true) := by
  have hsplit : services = services.take 8 ++ services.drop 8 :=
    (List.take_append_drop 8 services).symm
  have hip : ∀ x, x ∈ services.take 8 → x.family = AF_INET ∨ x.family = AF_INET6 := by
    decide
  have hnl : ∃ nl, services.drop 8 = [nl] ∧ nl.family = AF_NETLINK := ⟨_, rfl, rfl⟩
  obtain ⟨nl, hdrop, hnlfam⟩ := hnl
  have hin : sv ∈ services.take 8 := by
    rw [hsplit, List.mem_append, hdrop, List.mem_singleton] at hsv
    rcases hsv with h1 | h1
    · exact h1
    · exfalso
      rw [h1, hnlfam] at hfam
      revert hfam; decide
  obtain ⟨st1, h1, _, h3⟩ := build_services_ip h o envs ifs (services.take 8)
    (services.drop 8) { os := os } hip rfl
  have hsvnl : (sv, ifa).1.family ≠ AF_NETLINK := by
    rcases hfam with hf | hf <;> simp only [hf] <;> decide
  unfold build
  rw [hsplit, h1, hdrop,
    build_services_netlink_calls h o envs ifs nl st1 hnlfam (sv, ifa) hsvnl, h3]
  simp only [List.nil_append, List.mem_flatMap]
  constructor
  · rintro ⟨x, _, hx⟩
    by_cases hs : service_skipped o x = true
    · simp [hs] at hx
    · rw [if_neg hs] at hx
      simp only [List.mem_map, List.mem_filter] at hx
      obtain ⟨a, ⟨ha1, ha2⟩, ha3⟩ := hx
      cases ha3
      exact ⟨ha1, ha2⟩
  · rintro ⟨h5, h6⟩
    refine ⟨sv, hin, ?_⟩
    simp only [hpass, Bool.false_eq_true, if_false, List.mem_map, List.mem_filter]
    exact ⟨ifa, ⟨h5, h6⟩, rfl⟩

/-- C1. Interface selector: for an IP service `sv` of the table that passed the
command-line filters and a record `ifa` of the host's interface list, Building calls
`open_ep sv ifa` exactly when `ifa` has an address of `sv`'s family, carries neither
the loopback nor the slave flag, the configured name is unset or equals `ifa`'s name,
the name is not "LeafNets" and starts with none of "docker", "veth", "tun", "ppp",
"zt", the configured name is set or there is no `brport` entry, and `sv` declares no
multicast group or `ifa` carries the multicast flag. -/
theorem building_calls_open_ep_iff (h : Host) (o : Options) (envs : Nat → OpenEnv)
    (ifs : List ifaddrs) (os : OsState) (sv : service) (ifa : ifaddrs)
    (hsv : sv ∈ services) (hfam : sv.family = AF_INET ∨ sv.family = AF_INET6)
    (hpass : service_skipped o sv = false) (hifa : ifa ∈ ifs) :
    (sv, ifa) ∈ (build h o envs ifs os).calls ↔
      ((∃ a, ifa.ifa_addr = some a ∧ a.sa_family = sv.family) ∧
       ifa.ifa_flags &&& IFF_LOOPBACK = 0 ∧
       ifa.ifa_flags &&& IFF_SLAVE = 0 ∧
       (o.ifname = none ∨ o.ifname = some ifa.ifa_name) ∧
       ifa.ifa_name ≠ "LeafNets" ∧
       ¬ starts_with ifa.ifa_name "docker" ∧
       ¬ starts_with ifa.ifa_name "veth" ∧
       ¬ starts_with ifa.ifa_name "tun" ∧
       ¬ starts_with ifa.ifa_name "ppp" ∧
       ¬ starts_with ifa.ifa_name "zt" ∧
       (o.ifname ≠ none ∨ h.brport ifa.ifa_name = false) ∧
       (sv.mcast_addr = none ∨ ifa.ifa_flags &&& IFF_MULTICAST ≠ 0)) := by
  rw [build_calls_mem h o envs ifs os sv ifa hsv hfam hpass]
  have hbr : brport_skipped h o.ifname ifa = false ↔
      (o.ifname ≠ none ∨ h.brport ifa.ifa_name = false) := by
    unfold brport_skipped
    cases o.ifname <;> simp
  simp only [hifa, true_and, selected, Bool.and_eq_true, Bool.not_eq_true',
    ifa_skipped_eq_false_iff, hbr]
  constructor
  · rintro ⟨⟨a1, a2, a3, a4, a5, a6, a7, a8, a9, a10, a11⟩, b⟩
    exact ⟨a1, a2, a3, a4, a5, a6, a7, a8, a9, a10, b, a11⟩
  · rintro ⟨a1, a2, a3, a4, a5, a6, a7, a8, a9, a10, b, a11⟩
    exact ⟨⟨a1, a2, a3, a4, a5, a6, a7, a8, a9, a10, a11⟩, b⟩

theorem building_calls_open_ep_iff_witness :
    (wsdd_mcast_v4, eth0_record) ∈
      (build two_link_host {} (fun _ => {}) two_link_ifaddrs {}).calls :=
  (building_calls_open_ep_iff two_link_host {} (fun _ => {}) two_link_ifaddrs {}
      wsdd_mcast_v4 eth0_record (by decide) (Or.inl rfl) (by decide) (by decide)).mpr
    ⟨⟨_, rfl, rfl⟩, by decide, by decide, Or.inl rfl, by decide,
      by unfold starts_with; decide, by unfold starts_with; decide,
      by unfold starts_with; decide, by unfold starts_with; decide,
      by unfold starts_with; decide, Or.inr rfl, Or.inr (by decide)⟩

/-- C10, counterexample. `veth0` is a bridge port with an IPv4 address and the user
passed `-i veth0`, yet Building makes no `open_ep` call for it: the name is in the
hard-excluded set. -/
theorem bridge_port_named_not_built :
    bridge_host.brport veth0_record.ifa_name = true ∧
    veth0_record ∈ bridge_ifaddrs ∧
    wsdd_mcast_v4 ∈ services ∧
    service_skipped opts_i_veth0 wsdd_mcast_v4 = false ∧
    (∃ a, veth0_record.ifa_addr = some a ∧ a.sa_family = wsdd_mcast_v4.family) ∧
    ¬ ((wsdd_mcast_v4, veth0_record) ∈
          (build bridge_host opts_i_veth0 (fun _ => {}) bridge_ifaddrs {}).calls ↔
        opts_i_veth0.ifname = some veth0_record.ifa_name) := by
  refine ⟨by decide, by decide, by decide, by decide, ⟨_, rfl, rfl⟩, ?_⟩
  decide

/-- C10, amended. For a bridge-port record `ifa` of the host's list and an IP service
`sv` of `ifa`'s family that passed the command-line filters, Building calls
`open_ep sv ifa` exactly when the configured interface name is set and equals
`ifa`'s name and `ifa` passes the other selector tests: no loopback or slave flag,
a name outside the hard-excluded set, and the multicast flag when `sv` declares a
group. -/
theorem bridge_port_built_iff (h : Host) (o : Options) (envs : Nat → OpenEnv)
    (ifs : List ifaddrs) (os : OsState) (sv : service) (ifa : ifaddrs)
    (hsv : sv ∈ services) (hfam : sv.family = AF_INET ∨ sv.family = AF_INET6)
    (hpass : service_skipped o sv = false) (hifa : ifa ∈ ifs)
    (hbr : h.brport ifa.ifa_name = true)
    (haddr : ∃ a, ifa.ifa_addr = some a ∧ a.sa_family = sv.family) :
    (sv, ifa) ∈ (build h o envs ifs os).calls ↔
      (o.ifname = some ifa.ifa_name ∧
       ifa.ifa_flags &&& IFF_LOOPBACK = 0 ∧
       ifa.ifa_flags &&& IFF_SLAVE = 0 ∧
       ifa.ifa_name ≠ "LeafNets" ∧
       ¬ starts_with ifa.ifa_name "docker" ∧
       ¬ starts_with ifa.ifa_name "veth" ∧
       ¬ starts_with ifa.ifa_name "tun" ∧
       ¬ starts_with ifa.ifa_name "ppp" ∧
       ¬ starts_with ifa.ifa_name "zt" ∧
       (sv.mcast_addr = none ∨ ifa.ifa_flags &&& IFF_MULTICAST ≠ 0)) := by
  rw [build_calls_mem h o envs ifs os sv ifa hsv hfam hpass]
  have hbrs : brport_skipped h o.ifname ifa = false ↔ o.ifname ≠ none := by
    unfold brport_skipped
    cases o.ifname <;> simp [hbr]
  simp only [hifa, true_and, selected, Bool.and_eq_true, Bool.not_eq_true',
    ifa_skipped_eq_false_iff, hbrs]
  constructor
  · rintro ⟨⟨_, a2, a3, a4, a5, a6, a7, a8, a9, a10, a11⟩, b⟩
    refine ⟨?_, a2, a3, a5, a6, a7, a8, a9, a10, a11⟩
    rcases a4 with a4 | a4
    · exact absurd a4 b
    · exact a4
  · rintro ⟨a1, a2, a3, a5, a6, a7, a8, a9, a10, a11⟩
    refine ⟨⟨haddr, a2, a3, Or.inr a1, a5, a6, a7, a8, a9, a10, a11⟩, ?_⟩
    rw [a1]; simp

theorem bridge_port_built_iff_witness :
    (wsdd_mcast_v4, eth0_record) ∈
      (build eth_bridge_host opts_i_eth0 (fun _ => {}) [eth0_record] {}).calls :=
  (bridge_port_built_iff eth_bridge_host opts_i_eth0 (fun _ => {}) [eth0_record] {}
      wsdd_mcast_v4 eth0_record (by decide) (Or.inl rfl) (by decide) (by decide)
      (by decide) ⟨_, rfl, rfl⟩).mpr
    ⟨rfl, by decide, by decide, by decide,
      by unfold starts_with; decide, by unfold starts_with; decide,
      by unfold starts_with; decide, by unfold starts_with; decide,
      by unfold starts_with; decide, Or.inr (by decide)⟩

/-! ## Descriptor allocation -/

theorem lowest_free_from_mem (opened : List Nat) : ∀ (k n : Nat),
    lowest_free_from opened n k ∈ opened → ∀ j, n ≤ j → j ≤ n + k → j ∈ opened := by
  intro k
  induction k with
  | zero =>
    intro n hmem j h1 h2
    have hj : j = n := by omega
    rw [hj]; exact hmem
  | succ k ih =>
    intro n hmem j h1 h2
    simp only [lowest_free_from] at hmem
    by_cases hn : n ∈ opened
    · rw [if_pos hn] at hmem
      by_cases hj : j = n
      · rw [hj]; exact hn
      · exact ih (n + 1) hmem j (by omega) (by omega)
    · rw [if_neg hn] at hmem
      exact absurd hmem hn

/-- The descriptor `socket` returns was not open. -/
theorem lowest_free_not_mem (opened : List Nat) : lowest_free opened ∉ opened := by
  intro hmem
  have hall := lowest_free_from_mem opened opened.length 0 hmem
  have hsub : List.range (opened.length + 1) ⊆ opened := by
    intro j hj
    rw [List.mem_range] at hj
    exact hall j (Nat.zero_le _) (by omega)
  have hle := (List.nodup_range (opened.length + 1)).subperm hsub |>.length_le
  rw [List.length_range] at hle
  omega

/-! ## Descriptor accounting of the builder -/

theorem released_refl (os : OsState) : Released os os := ⟨rfl, Nat.add_comm _ _, rfl⟩

theorem released_errno (os : OsState) (e : Nat) : Released os { os with errno := e } :=
  ⟨rfl, Nat.add_comm _ _, rfl⟩

theorem sys_close_released (os0 os : OsState) (ep : endpoint) (hh : Holds os0 os ep) :
    Released os0 (sys_close ep.sock os) := by
  obtain ⟨h0, h1, h2, h3, h4, _⟩ := hh
  have hmem : ep.sock.toNat ∈ os.opened := by rw [h1]; exact List.mem_cons_self _ _
  unfold sys_close
  rw [if_pos ⟨h0, hmem⟩]
  refine ⟨?_, ?_, ?_⟩
  · simp [h1]
  · simp only [h2, h3]; omega
  · exact h4

theorem fail_close_accounted (os0 os : OsState) (ep : endpoint) (msg : String) (e : Nat)
    (stage : Stage) (hh : Holds os0 os ep) :
    Accounted os0 (fail_close ep os msg e stage) := by
  right
  refine ⟨Or.inl (by simp [fail_close]), ?_⟩
  have h2 : Holds os0 { os with errno := e } ep := hh
  exact sys_close_released os0 _ ep h2

theorem open_ep_init_accounted (env : OpenEnv) (os0 os : OsState) (ep : endpoint)
    (hh : Holds os0 os ep) : Accounted os0 (open_ep_init env os ep) := by
  unfold open_ep_init
  split
  · have hsock : ∀ ep1 : endpoint, ep1 = (match env.init_err with
          | some (msg, e) => { ep with errstr := some msg, _errno := e }
          | none => ep) → ep1.sock = ep.sock := by
      intro ep1 h1
      rw [h1]
      split <;> rfl
    have hs := hsock _ rfl
    have hh1 : Holds os0 os (match env.init_err with
          | some (msg, e) => { ep with errstr := some msg, _errno := e }
          | none => ep) := by
      unfold Holds
      rw [hs]
      exact hh
    simp only []
    split
    · right
      exact ⟨Or.inl (by simp), sys_close_released os0 os _ hh1⟩
    · left
      exact ⟨rfl, hh1⟩
  · left
    exact ⟨rfl, hh⟩

theorem open_ep_listen_accounted (env : OpenEnv) (os0 os : OsState) (ep : endpoint)
    (hh : Holds os0 os ep) : Accounted os0 (open_ep_listen env os ep) := by
  unfold open_ep_listen
  split
  · split
    · exact fail_close_accounted os0 os ep _ _ _ hh
    · exact open_ep_init_accounted env os0 os ep hh
  · exact open_ep_init_accounted env os0 os ep hh

theorem open_ep_mcast_accounted (env : OpenEnv) (os0 os : OsState) (sv : service)
    (ep : endpoint) (hh : Holds os0 os ep) : Accounted os0 (open_ep_mcast env os sv ep) := by
  unfold open_ep_mcast
  split
  · split
    · exact fail_close_accounted os0 os ep _ _ _ hh
    · split
      · exact fail_close_accounted os0 os ep _ _ _ hh
      · split
        · exact fail_close_accounted os0 os ep _ _ _ hh
        · split
          · exact fail_close_accounted os0 os ep _ _ _ hh
          · exact open_ep_listen_accounted env os0 os ep hh
  · exact open_ep_listen_accounted env os0 os ep hh

theorem open_ep_bind_accounted (env : OpenEnv) (os0 os : OsState) (sv : service)
    (ep : endpoint) (hh : Holds os0 os ep) : Accounted os0 (open_ep_bind env os sv ep) := by
  unfold open_ep_bind
  split
  · right
    refine ⟨Or.inr (by simp), ?_⟩
    have h2 : Holds os0 { os with errno := _ } ep := hh
    exact sys_close_released os0 _ ep h2
  · exact open_ep_mcast_accounted env os0 os sv ep hh

theorem open_ep_socket_accounted (env : OpenEnv) (os : OsState) (sv : service)
    (ep : endpoint) : Accounted os (open_ep_socket env os sv ep) := by
  unfold open_ep_socket
  split
  · right
    exact ⟨Or.inl (by simp), released_errno os _⟩
  · have hh : ∀ os2 : OsState, os2 = (match (if ep.family = AF_NETLINK
            then env.so_rcvbufforce else none) with
          | some e =>
            { opened := lowest_free os.opened :: os.opened, created := os.created + 1,
              closed := os.closed, badclose := os.badclose, errno := e }
          | none =>
            { os with opened := lowest_free os.opened :: os.opened,
                      created := os.created + 1 }) →
        Holds os os2 { ep with sock := (lowest_free os.opened : Int) } := by
      intro os2 h2
      rw [h2]
      split <;>
        exact ⟨Int.ofNat_nonneg _, by simp, rfl, rfl, rfl, by simpa using lowest_free_not_mem os.opened⟩
    have hh2 := hh _ rfl
    simp only []
    split
    · exact fail_close_accounted os _ _ _ _ _ hh2
    · split
      · exact fail_close_accounted os _ _ _ _ _ hh2
      · exact open_ep_bind_accounted env os _ sv _ hh2

theorem released_if_errno (os : OsState) (c : Prop) [Decidable c] (e : Nat) :
    Released os (if c then { os with errno := e } else os) := by
  split
  · exact released_errno os e
  · exact released_refl os

theorem open_ep_addresses_accounted (env : OpenEnv) (os : OsState) (sv : service)
    (ifa : ifaddrs) (sp : sock_params_t) (ep : endpoint) :
    Accounted os (open_ep_addresses env os sv ifa sp ep) := by
  unfold open_ep_addresses
  simp only []
  split
  · split
    · split
      · right
        exact ⟨Or.inl (by simp), released_if_errno os _ _⟩
      · exact open_ep_socket_accounted env os sv _
    · exact open_ep_socket_accounted env os sv _
  · split
    · exact open_ep_socket_accounted env os sv _
    · exact open_ep_socket_accounted env os sv _

/-- Every run of `open_ep` either succeeds holding its new socket or leaves no
socket open. -/
theorem open_ep_accounted (env : OpenEnv) (os : OsState) (sv : service) (ifa : ifaddrs) :
    Accounted os (open_ep env os sv ifa) := by
  unfold open_ep
  simp only []
  split
  · right
    exact ⟨Or.inl (by simp), released_refl os⟩
  · split
    · by_cases hport : (if (env.getservbyname sv.port_name (servicename sv.type)).getD 0 = 0
          then sv.port_num
          else (env.getservbyname sv.port_name (servicename sv.type)).getD 0) = 0
      · rw [if_pos hport]
        right
        exact ⟨Or.inl (by simp), released_refl os⟩
      · rw [if_neg hport]
        exact open_ep_addresses_accounted env os sv ifa _ _
    · exact open_ep_addresses_accounted env os sv ifa _ _

/-! ## Descriptor accounting of Building and teardown -/

theorem registered_of_released (os0 : OsState) (st : BuildState) (os1 : OsState)
    (calls : List (service × ifaddrs)) (freed : List endpoint) (badep : Option endpoint)
    (hreg : Registered os0 st) (hrel : Released st.os os1) :
    Registered os0 { st with os := os1, calls := calls, freed := freed, badep := badep } := by
  obtain ⟨h1, h2, h3, h4, h5⟩ := hreg
  obtain ⟨r1, r2, r3⟩ := hrel
  refine ⟨h1, ?_, ?_, ?_, h5⟩
  · show os1.opened = _; rw [r1, h2]
  · show os1.created + os0.closed = os1.closed + os0.created + st.endpoints.length
    omega
  · show os1.badclose = _; rw [r3, h4]

theorem registered_of_holds (os0 : OsState) (st : BuildState) (os1 : OsState)
    (calls : List (service × ifaddrs)) (ep : endpoint)
    (hreg : Registered os0 st) (hh : Holds st.os os1 ep) :
    Registered os0 (register_ep { st with os := os1, calls := calls } ep) := by
  obtain ⟨h1, h2, h3, h4, h5⟩ := hreg
  obtain ⟨r0, r1, r2, r3, r4, r5⟩ := hh
  refine ⟨?_, ?_, ?_, ?_, ?_⟩
  · intro x hx
    simp only [register_ep, List.mem_cons] at hx
    rcases hx with hx | hx
    · rw [hx]; exact r0
    · exact h1 x hx
  · show os1.opened = _
    simp [register_ep, r1, h2]
  · show os1.created + os0.closed = os1.closed + os0.created + (ep :: st.endpoints).length
    simp only [List.length_cons]
    omega
  · show os1.badclose = _; rw [r4, h4]
  · show ((ep :: st.endpoints).map (fun ep => ep.sock.toNat)).Nodup
    rw [List.map_cons, List.nodup_cons]
    refine ⟨?_, h5⟩
    intro hmem
    apply r5
    rw [h2]
    exact List.mem_append_left _ hmem

/-- What the supervisor does with a finished `open_ep` run keeps the invariant,
whichever of the three branches it takes (`freed` and `badep` do not matter). -/
theorem registered_after_open (os0 : OsState) (st : BuildState) (r : OpenResult)
    (calls : List (service × ifaddrs)) (hreg : Registered os0 st)
    (hacc : Accounted st.os r) :
    (r.rv ≠ 0 → ∀ freed badep,
      Registered os0 { st with os := r.os, calls := calls, freed := freed, badep := badep }) ∧
    (r.rv = 0 → r.ep.sock < 0 → ∀ freed,
      Registered os0 { st with os := r.os, calls := calls, freed := freed }) ∧
    (r.rv = 0 → ¬ r.ep.sock < 0 →
      Registered os0 (register_ep { st with os := r.os, calls := calls } r.ep)) := by
  refine ⟨?_, ?_, ?_⟩
  · intro hrv freed badep
    rcases hacc with ⟨h0, _⟩ | ⟨_, hrel⟩
    · exact absurd h0 hrv
    · exact registered_of_released os0 st r.os calls freed badep hreg hrel
  · intro _ hneg freed
    rcases hacc with ⟨_, hh⟩ | ⟨_, hrel⟩
    · exact absurd hh.1 (by omega)
    · exact registered_of_released os0 st r.os calls freed st.badep hreg hrel
  · intro hrv hpos
    rcases hacc with ⟨_, hh⟩ | ⟨hbad, _⟩
    · exact registered_of_holds os0 st r.os calls r.ep hreg hh
    · rcases hbad with hbad | hbad
      · exact absurd hrv hbad
      · exact absurd hbad hpos

theorem build_ip_body_registered (h : Host) (ifname : Option String) (envs : Nat → OpenEnv)
    (sv : service) (ifa : ifaddrs) (os0 : OsState) (st : BuildState)
    (hreg : Registered os0 st) :
    Registered os0 (build_ip_body h ifname envs sv ifa st) := by
  have hopen := registered_after_open os0 st
    (open_ep (envs st.calls.length) st.os sv ifa) (st.calls ++ [(sv, ifa)]) hreg
    (open_ep_accounted _ _ _ _)
  unfold build_ip_body
  split
  · exact hreg
  · split
    · exact hreg
    · simp only []
      split
      · rename_i hrv
        exact hopen.1 hrv _ st.badep
      · rename_i hrv
        have hrv0 : (open_ep (envs st.calls.length) st.os sv ifa).rv = 0 := by
          simpa using hrv
        split
        · rename_i hneg
          exact hopen.2.1 hrv0 hneg _
        · rename_i hneg
          exact hopen.2.2 hrv0 hneg

theorem build_ip_registered (h : Host) (ifname : Option String) (envs : Nat → OpenEnv)
    (sv : service) (os0 : OsState) : ∀ (ifs : List ifaddrs) (st : BuildState),
    Registered os0 st → Registered os0 (build_ip h ifname envs sv ifs st) := by
  intro ifs
  induction ifs with
  | nil => intro st hreg; exact hreg
  | cons ifa rest ih =>
    intro st hreg
    exact ih _ (build_ip_body_registered h ifname envs sv ifa os0 st hreg)

theorem build_services_registered (h : Host) (o : Options) (envs : Nat → OpenEnv)
    (ifs : List ifaddrs) (os0 : OsState) : ∀ (svs : List service) (st : BuildState),
    Registered os0 st → Registered os0 (build_services h o envs ifs svs st) := by
  intro svs
  induction svs with
  | nil => intro st hreg; exact hreg
  | cons sv rest ih =>
    intro st hreg
    have hopen := registered_after_open os0 st
      (open_ep (envs st.calls.length) st.os sv netlink_ifa)
      (st.calls ++ [(sv, netlink_ifa)]) hreg (open_ep_accounted _ _ _ _)
    simp only [build_services]
    split
    · exact ih st hreg
    · split
      · have hip := build_ip_registered h o.ifname envs sv os0 ifs st hreg
        split
        · exact hip
        · exact ih _ hip
      · split
        · split
          · rename_i hrv
            exact hopen.1 hrv st.freed _
          · rename_i hrv
            have hrv0 : (open_ep (envs st.calls.length) st.os sv netlink_ifa).rv = 0 := by
              simpa using hrv
            split
            · rename_i hneg
              exact ih _ (hopen.2.1 hrv0 hneg _)
            · rename_i hneg
              exact ih _ (hopen.2.2 hrv0 hneg)
        · exact ih st hreg

theorem build_registered (h : Host) (o : Options) (envs : Nat → OpenEnv)
    (ifs : List ifaddrs) (os : OsState) : Registered os (build h o envs ifs os) := by
  unfold build
  apply build_services_registered
  exact ⟨(by intro ep hep; cases hep), rfl, (by simp [Nat.add_comm]), rfl, List.nodup_nil⟩

theorem teardown_from_released (os0 : OsState) : ∀ (eps : List endpoint) (st : BuildState),
    (∀ ep, ep ∈ eps → 0 ≤ ep.sock) →
    st.os.opened = eps.map (fun ep => ep.sock.toNat) ++ os0.opened →
    st.os.created + os0.closed = st.os.closed + os0.created + eps.length →
    st.os.badclose = os0.badclose →
    (teardown_from eps st).endpoints = [] ∧ Released os0 (teardown_from eps st).os ∧
    (teardown_from eps st).badep = st.badep ∧
    (teardown_from eps st).os.closed = st.os.closed + eps.length := by
  intro eps
  induction eps with
  | nil =>
    intro st _ h2 h3 h4
    have e1 : (teardown_from [] st).os = st.os := rfl
    refine ⟨rfl, ?_, rfl, ?_⟩
    · rw [e1]
      exact ⟨by simpa using h2, by simpa using h3, h4⟩
    · rw [e1]; rfl
  | cons ep rest ih =>
    intro st h1 h2 h3 h4
    have hpos := h1 ep (List.mem_cons_self _ _)
    have hmem : ep.sock.toNat ∈ st.os.opened := by rw [h2]; simp
    have hclose : close_ep st.os ep =
        { st.os with opened := rest.map (fun ep => ep.sock.toNat) ++ os0.opened,
                     closed := st.os.closed + 1 } := by
      unfold close_ep sys_close
      rw [if_pos ⟨hpos, hmem⟩]
      simp [h2]
    have hc1 : (close_ep st.os ep).opened =
        rest.map (fun ep => ep.sock.toNat) ++ os0.opened := by rw [hclose]
    have hc2 : (close_ep st.os ep).created = st.os.created := by rw [hclose]
    have hc3 : (close_ep st.os ep).closed = st.os.closed + 1 := by rw [hclose]
    have hc4 : (close_ep st.os ep).badclose = st.os.badclose := by rw [hclose]
    have hlen : (ep :: rest).length = rest.length + 1 := rfl
    have hrec := ih
      { st with os := close_ep st.os ep, freed := ep :: st.freed, endpoints := rest }
      (fun x hx => h1 x (List.mem_cons_of_mem _ hx))
      hc1
      (by show (close_ep st.os ep).created + os0.closed =
              (close_ep st.os ep).closed + os0.created + rest.length
          rw [hc2, hc3]; omega)
      (by show (close_ep st.os ep).badclose = os0.badclose
          rw [hc4]; exact h4)
    have e2 : teardown_from (ep :: rest) st = teardown_from rest
      { st with os := close_ep st.os ep, freed := ep :: st.freed, endpoints := rest } := rfl
    rw [e2]
    refine ⟨hrec.1, hrec.2.1, hrec.2.2.1, ?_⟩
    rw [hrec.2.2.2]
    show (close_ep st.os ep).closed + rest.length = st.os.closed + (ep :: rest).length
    rw [hc3, hlen]; omega

theorem teardown_released (os0 : OsState) (st : BuildState) (hreg : Registered os0 st) :
    (teardown st).endpoints = [] ∧ Released os0 (teardown st).os ∧
    (teardown st).os.closed = st.os.closed + st.endpoints.length := by
  obtain ⟨h1, h2, h3, h4, _⟩ := hreg
  have ht := teardown_from_released os0 st.endpoints st h1 h2 h3 h4
  exact ⟨ht.1, ht.2.1, ht.2.2.2⟩

theorem cycle_end_st (st : BuildState) (restart waits rv : Nat) :
    (cycle_end st restart waits rv).st = teardown st := by
  unfold cycle_end
  simp only []
  split
  · rfl
  · split <;> rfl

/-- When a cycle of `main` ends (it is not still blocked in `select`), its state is
the torn-down Building state. -/
theorem main_cycle_st (h : Host) (o : Options) (envs : Nat → OpenEnv)
    (evs : List WaitEvent) (os : OsState) (restart : Nat) (ifs : List ifaddrs)
    (hget : h.getifaddrs = some ifs)
    (hend : (main_cycle h o envs evs os restart).outcome ≠ Outcome.blocked) :
    (main_cycle h o envs evs os restart).st = teardown (build h o envs ifs os) := by
  unfold main_cycle at hend ⊢
  simp only [hget] at hend ⊢
  split
  · rename_i hb
    simp only [hb, if_true] at hend
    cases hsel : select_loop (build h o envs ifs os).endpoints evs restart 0 with
    | left n e r w => simp only []; exact cycle_end_st _ _ _ _
    | jumped r w => simp only []; exact cycle_end_st _ _ _ _
    | blocked r w =>
      rw [hsel] at hend
      exact absurd rfl hend
  · exact cycle_end_st _ _ _ _

/-- C9. No socket leak: for every outcome of every `open_ep` run of a Building phase,
teardown leaves the registry empty and the descriptor table as it was before
Building: the same open descriptors, as many closes as sockets created, and no
`close` of a descriptor that was not open. A run of `open_ep` either returns holding
its one new socket or has closed it itself; the sockets still held after Building
are those of the registry, pairwise distinct, and teardown closes each of them. The
same holds at the end of every cycle of `main`. -/
theorem no_socket_leak (h : Host) (o : Options) (envs : Nat → OpenEnv)
    (ifs : List ifaddrs) (os : OsState) :
    (teardown (build h o envs ifs os)).endpoints = [] ∧
    (teardown (build h o envs ifs os)).os.opened = os.opened ∧
    (teardown (build h o envs ifs os)).os.created + os.closed =
      (teardown (build h o envs ifs os)).os.closed + os.created ∧
    (teardown (build h o envs ifs os)).os.badclose = os.badclose ∧
    (teardown (build h o envs ifs os)).os.closed =
      (build h o envs ifs os).os.closed + (build h o envs ifs os).endpoints.length ∧
    (build h o envs ifs os).os.opened =
      (build h o envs ifs os).endpoints.map (fun ep => ep.sock.toNat) ++ os.opened ∧
    ((build h o envs ifs os).endpoints.map (fun ep => ep.sock.toNat)).Nodup ∧
    (∀ env os1 sv ifa, Accounted os1 (open_ep env os1 sv ifa)) ∧
    (∀ evs restart, h.getifaddrs = some ifs →
      (main_cycle h o envs evs os restart).outcome ≠ Outcome.blocked →
      (main_cycle h o envs evs os restart).st.endpoints = [] ∧
      Released os (main_cycle h o envs evs os restart).st.os) := by
  have hreg := build_registered h o envs ifs os
  have ht := teardown_released os (build h o envs ifs os) hreg
  obtain ⟨t1, ⟨t2, t3, t4⟩, t5⟩ := ht
  refine ⟨t1, t2, t3, t4, t5, hreg.2.1, hreg.2.2.2.2, ?_, ?_⟩
  · intro env os1 sv ifa
    exact open_ep_accounted env os1 sv ifa
  · intro evs restart hget hend
    rw [main_cycle_st h o envs evs os restart ifs hget hend]
    exact ⟨t1, t2, t3, t4⟩

/-! ## The bind step -/

theorem open_ep_init_stage (env : OpenEnv) (os : OsState) (ep : endpoint) :
    (open_ep_init env os ep).stage ≠ Stage.bind := by
  unfold open_ep_init
  split
  · simp only []
    split <;> simp
  · simp

theorem open_ep_listen_stage (env : OpenEnv) (os : OsState) (ep : endpoint) :
    (open_ep_listen env os ep).stage ≠ Stage.bind := by
  unfold open_ep_listen
  split
  · split
    · simp [fail_close]
    · exact open_ep_init_stage env os ep
  · exact open_ep_init_stage env os ep

theorem open_ep_mcast_stage (env : OpenEnv) (os : OsState) (sv : service) (ep : endpoint) :
    (open_ep_mcast env os sv ep).stage ≠ Stage.bind := by
  unfold open_ep_mcast
  split
  · split
    · simp [fail_close]
    · split
      · simp [fail_close]
      · split
        · simp [fail_close]
        · split
          · simp [fail_close]
          · exact open_ep_listen_stage env os ep
  · exact open_ep_listen_stage env os ep

/-- A result of `open_ep_bind` with return point `bind` comes from a failed `bind`. -/
theorem open_ep_bind_stage (env : OpenEnv) (os : OsState) (sv : service) (ep : endpoint)
    (hst : (open_ep_bind env os sv ep).stage = Stage.bind) : ∃ e, env.bind = some e := by
  cases hb : env.bind with
  | some e => exact ⟨e, rfl⟩
  | none =>
    exfalso
    simp only [open_ep_bind, hb] at hst
    exact open_ep_mcast_stage env os sv ep hst

theorem open_ep_socket_bind (env : OpenEnv) (os : OsState) (sv : service) (ep : endpoint) :
    (open_ep_socket env os sv ep).stage = Stage.bind →
    ∃ os2 ep1, Holds os os2 ep1 ∧ open_ep_socket env os sv ep = open_ep_bind env os2 sv ep1 := by
  unfold open_ep_socket
  split
  · intro hst; simp at hst
  · have hh : ∀ os2 : OsState, os2 = (match (if ep.family = AF_NETLINK
            then env.so_rcvbufforce else none) with
          | some e =>
            { opened := lowest_free os.opened :: os.opened, created := os.created + 1,
              closed := os.closed, badclose := os.badclose, errno := e }
          | none =>
            { os with opened := lowest_free os.opened :: os.opened,
                      created := os.created + 1 }) →
        Holds os os2 { ep with sock := (lowest_free os.opened : Int) } := by
      intro os2 h2
      rw [h2]
      split <;>
        exact ⟨Int.ofNat_nonneg _, by simp, rfl, rfl, rfl, by simpa using lowest_free_not_mem os.opened⟩
    have hh2 := hh _ rfl
    simp only []
    split
    · intro hst; simp [fail_close] at hst
    · split
      · intro hst; simp [fail_close] at hst
      · intro _
        exact ⟨_, _, hh2, rfl⟩

theorem open_ep_addresses_bind (env : OpenEnv) (os : OsState) (sv : service)
    (ifa : ifaddrs) (sp : sock_params_t) (ep : endpoint) :
    (open_ep_addresses env os sv ifa sp ep).stage = Stage.bind →
    ∃ os2 ep1, Holds os os2 ep1 ∧
      open_ep_addresses env os sv ifa sp ep = open_ep_bind env os2 sv ep1 := by
  unfold open_ep_addresses
  simp only []
  split
  · split
    · split
      · intro hst; simp at hst
      · exact open_ep_socket_bind env os sv _
    · exact open_ep_socket_bind env os sv _
  · split
    · exact open_ep_socket_bind env os sv _
    · exact open_ep_socket_bind env os sv _

/-- A run of `open_ep` that returned at the `bind` step is `open_ep_bind` on the
freshly created socket. -/
theorem open_ep_bind_reached (env : OpenEnv) (os : OsState) (sv : service) (ifa : ifaddrs) :
    (open_ep env os sv ifa).stage = Stage.bind →
    ∃ os2 ep1, Holds os os2 ep1 ∧ open_ep env os sv ifa = open_ep_bind env os2 sv ep1 := by
  unfold open_ep
  simp only []
  split
  · intro hst; simp at hst
  · split
    · by_cases hport : (if (env.getservbyname sv.port_name (servicename sv.type)).getD 0 = 0
          then sv.port_num
          else (env.getservbyname sv.port_name (servicename sv.type)).getD 0) = 0
      · rw [if_pos hport]
        intro hst; simp at hst
      · rw [if_neg hport]
        exact open_ep_addresses_bind env os sv ifa _ _
    · exact open_ep_addresses_bind env os sv ifa _ _

/-- What `open_ep` returns after a failed `bind`. -/
theorem open_ep_bind_failed (env : OpenEnv) (os : OsState) (sv : service) (ifa : ifaddrs)
    (e : Nat) (hst : (open_ep env os sv ifa).stage = Stage.bind) (hb : env.bind = some e) :
    (open_ep env os sv ifa).rv = (if e = EADDRINUSE then 0 else -1) ∧
    (open_ep env os sv ifa).ep.sock = -1 ∧
    (open_ep env os sv ifa).ep._errno = e ∧
    (open_ep env os sv ifa).ep.errstr = some "open_ep: bind" ∧
    (open_ep env os sv ifa).os.opened = os.opened ∧
    (open_ep env os sv ifa).os.created = os.created + 1 ∧
    (open_ep env os sv ifa).os.closed = os.closed + 1 ∧
    (open_ep env os sv ifa).os.badclose = os.badclose := by
  obtain ⟨os2, ep1, hh, heq⟩ := open_ep_bind_reached env os sv ifa hst
  obtain ⟨h0, h1, h2, h3, h4, _⟩ := hh
  have hmem : ep1.sock.toNat ∈ os2.opened := by rw [h1]; exact List.mem_cons_self _ _
  have hclose : sys_close ep1.sock { os2 with errno := e } =
      { os2 with opened := os.opened, closed := os2.closed + 1, errno := e } := by
    unfold sys_close
    rw [if_pos ⟨h0, hmem⟩]
    simp [h1]
  rw [heq]
  simp only [open_ep_bind, hb, hclose]
  exact ⟨trivial, trivial, trivial, trivial, trivial, h2, by rw [h3], h4⟩

/-- C7. Bind partial-failure policy. When a run of `open_ep` returns at its `bind`
step with `errno = e`: the socket it created is closed again, the handle is `-1`, the
error slot holds `e`, and the return value is `0` for `EADDRINUSE` and `-1` for every
other error. For `EADDRINUSE` the supervisor frees the endpoint, leaves the registry,
the readiness mask, `nfds` and `badep` as they were, and goes on with the next
interface record (IP services) or the next service (kernel-link service). -/
theorem bind_failure_policy (h : Host) (o : Options) (envs : Nat → OpenEnv)
    (ifs rest : List ifaddrs) (more : List service) (sv : service) (ifa : ifaddrs)
    (st : BuildState) (e : Nat)
    (hstage : (open_ep (envs st.calls.length) st.os sv ifa).stage = Stage.bind)
    (hbind : (envs st.calls.length).bind = some e) :
    ((open_ep (envs st.calls.length) st.os sv ifa).rv = (if e = EADDRINUSE then 0 else -1) ∧
     (open_ep (envs st.calls.length) st.os sv ifa).ep.sock = -1 ∧
     (open_ep (envs st.calls.length) st.os sv ifa).ep._errno = e ∧
     (open_ep (envs st.calls.length) st.os sv ifa).os.opened = st.os.opened ∧
     (open_ep (envs st.calls.length) st.os sv ifa).os.created = st.os.created + 1 ∧
     (open_ep (envs st.calls.length) st.os sv ifa).os.closed = st.os.closed + 1 ∧
     (open_ep (envs st.calls.length) st.os sv ifa).os.badclose = st.os.badclose) ∧
    (e = EADDRINUSE → selected h o.ifname sv ifa = true →
      (build_ip_body h o.ifname envs sv ifa st).endpoints = st.endpoints ∧
      (build_ip_body h o.ifname envs sv ifa st).fds = st.fds ∧
      (build_ip_body h o.ifname envs sv ifa st).nfds = st.nfds ∧
      (build_ip_body h o.ifname envs sv ifa st).badep = st.badep ∧
      (build_ip_body h o.ifname envs sv ifa st).freed =
        (open_ep (envs st.calls.length) st.os sv ifa).ep :: st.freed ∧
      build_ip h o.ifname envs sv (ifa :: rest) st =
        build_ip h o.ifname envs sv rest
          { st with os := (open_ep (envs st.calls.length) st.os sv ifa).os,
                    calls := st.calls ++ [(sv, ifa)],
                    freed := (open_ep (envs st.calls.length) st.os sv ifa).ep :: st.freed }) ∧
    (e = EADDRINUSE → sv.family = AF_NETLINK → ifa = netlink_ifa →
      service_skipped o sv = false →
      build_services h o envs ifs (sv :: more) st =
        build_services h o envs ifs more
          { st with os := (open_ep (envs st.calls.length) st.os sv ifa).os,
                    calls := st.calls ++ [(sv, ifa)],
                    freed := (open_ep (envs st.calls.length) st.os sv ifa).ep :: st.freed }) := by
  obtain ⟨f1, f2, f3, _, f5, f6, f7, f8⟩ :=
    open_ep_bind_failed (envs st.calls.length) st.os sv ifa e hstage hbind
  refine ⟨⟨f1, f2, f3, f5, f6, f7, f8⟩, ?_, ?_⟩
  · intro he hsel
    have hrv : (open_ep (envs st.calls.length) st.os sv ifa).rv = 0 := by
      rw [f1, if_pos he]
    have hneg : (open_ep (envs st.calls.length) st.os sv ifa).ep.sock < 0 := by
      rw [f2]; decide
    simp only [selected, Bool.and_eq_true, Bool.not_eq_true'] at hsel
    have hbody : build_ip_body h o.ifname envs sv ifa st =
        { st with os := (open_ep (envs st.calls.length) st.os sv ifa).os,
                  calls := st.calls ++ [(sv, ifa)],
                  freed := (open_ep (envs st.calls.length) st.os sv ifa).ep :: st.freed } := by
      unfold build_ip_body
      simp [hsel.1, hsel.2, hrv, hneg]
    refine ⟨?_, ?_, ?_, ?_, ?_, ?_⟩
    · rw [hbody]
    · rw [hbody]
    · rw [hbody]
    · rw [hbody]
    · rw [hbody]
    · show build_ip h o.ifname envs sv rest (build_ip_body h o.ifname envs sv ifa st) = _
      rw [hbody]
  · intro he hnl hifa hpass
    subst hifa
    have hrv : (open_ep (envs st.calls.length) st.os sv netlink_ifa).rv = 0 := by
      rw [f1, if_pos he]
    have hneg : (open_ep (envs st.calls.length) st.os sv netlink_ifa).ep.sock < 0 := by
      rw [f2]; decide
    have h5 : ¬ (AF_NETLINK = AF_INET ∨ AF_NETLINK = AF_INET6) := by decide
    simp [build_services, hpass, hnl, h5, hrv, hneg]

theorem bind_failure_policy_witness :
    (open_ep { bind := some EADDRINUSE } {} wsdd_mcast_v4 eth0_record).rv = 0 ∧
    (open_ep { bind := some EADDRINUSE } {} wsdd_mcast_v4 eth0_record).ep.sock = -1 ∧
    (open_ep { bind := some EADDRINUSE } {} wsdd_mcast_v4 eth0_record).os.opened = [] :=
  have hw := bind_failure_policy two_link_host {} (fun _ => { bind := some EADDRINUSE })
    two_link_ifaddrs [] [] wsdd_mcast_v4 eth0_record {} EADDRINUSE (by decide) rfl
  ⟨hw.1.1, hw.1.2.1, hw.1.2.2.2.1⟩

/-! ## The terminal marker -/

theorem open_ep_init_service (env : OpenEnv) (os : OsState) (ep : endpoint) :
    (open_ep_init env os ep).ep.service = ep.service := by
  unfold open_ep_init
  split
  · simp only []
    split <;> (split <;> rfl)
  · rfl

theorem open_ep_listen_service (env : OpenEnv) (os : OsState) (ep : endpoint) :
    (open_ep_listen env os ep).ep.service = ep.service := by
  unfold open_ep_listen
  split
  · split
    · rfl
    · exact open_ep_init_service env os ep
  · exact open_ep_init_service env os ep

theorem open_ep_mcast_service (env : OpenEnv) (os : OsState) (sv : service) (ep : endpoint) :
    (open_ep_mcast env os sv ep).ep.service = ep.service := by
  unfold open_ep_mcast
  split
  · split
    · rfl
    · split
      · rfl
      · split
        · rfl
        · split
          · rfl
          · exact open_ep_listen_service env os ep
  · exact open_ep_listen_service env os ep

theorem open_ep_bind_service (env : OpenEnv) (os : OsState) (sv : service) (ep : endpoint) :
    (open_ep_bind env os sv ep).ep.service = ep.service := by
  unfold open_ep_bind
  split
  · rfl
  · exact open_ep_mcast_service env os sv ep

theorem open_ep_socket_service (env : OpenEnv) (os : OsState) (sv : service) (ep : endpoint) :
    (open_ep_socket env os sv ep).ep.service = ep.service := by
  unfold open_ep_socket
  split
  · rfl
  · simp only []
    split
    · rfl
    · split
      · rfl
      · rw [open_ep_bind_service]

theorem open_ep_addresses_service (env : OpenEnv) (os : OsState) (sv : service)
    (ifa : ifaddrs) (sp : sock_params_t) (ep : endpoint) :
    (open_ep_addresses env os sv ifa sp ep).ep.service = ep.service := by
  unfold open_ep_addresses
  simp only []
  split
  · split
    · split
      · rfl
      · rw [open_ep_socket_service]
    · rw [open_ep_socket_service]
  · split
    · rw [open_ep_socket_service]
    · rw [open_ep_socket_service]

/-- The endpoint `open_ep` leaves in `*epp` refers to the service it was called for. -/
theorem open_ep_service (env : OpenEnv) (os : OsState) (sv : service) (ifa : ifaddrs) :
    (open_ep env os sv ifa).ep.service = sv := by
  unfold open_ep
  simp only []
  split
  · rfl
  · split
    · by_cases hport : (if (env.getservbyname sv.port_name (servicename sv.type)).getD 0 = 0
          then sv.port_num
          else (env.getservbyname sv.port_name (servicename sv.type)).getD 0) = 0
      · rw [if_pos hport]
      · rw [if_neg hport, open_ep_addresses_service]
    · rw [open_ep_addresses_service]

/-- The marker `badep` is set only by a failed `open_ep` for a kernel-link service. -/
theorem build_services_badep (h : Host) (o : Options) (envs : Nat → OpenEnv)
    (ifs : List ifaddrs) : ∀ (svs : List service) (st : BuildState) (ep : endpoint),
    st.badep = none → (build_services h o envs ifs svs st).badep = some ep →
    ∃ sv k os1, sv ∈ svs ∧ sv.family = AF_NETLINK ∧
      ep = (open_ep (envs k) os1 sv netlink_ifa).ep ∧
      (open_ep (envs k) os1 sv netlink_ifa).rv ≠ 0 := by
  intro svs
  induction svs with
  | nil =>
    intro st ep hb hbad
    simp only [build_services] at hbad
    rw [hb] at hbad; cases hbad
  | cons sv rest ih =>
    intro st ep hb hbad
    have lift : (∃ sv1 k os1, sv1 ∈ rest ∧ sv1.family = AF_NETLINK ∧
          ep = (open_ep (envs k) os1 sv1 netlink_ifa).ep ∧
          (open_ep (envs k) os1 sv1 netlink_ifa).rv ≠ 0) →
        ∃ sv1 k os1, sv1 ∈ sv :: rest ∧ sv1.family = AF_NETLINK ∧
          ep = (open_ep (envs k) os1 sv1 netlink_ifa).ep ∧
          (open_ep (envs k) os1 sv1 netlink_ifa).rv ≠ 0 := by
      rintro ⟨sv1, k, os1, h1, h2⟩
      exact ⟨sv1, k, os1, List.mem_cons_of_mem _ h1, h2⟩
    simp only [build_services] at hbad
    split at hbad
    · exact lift (ih st ep hb hbad)
    · split at hbad
      · have hip := (build_ip_calls h o.ifname envs sv ifs st).2
        have hb1 : (build_ip h o.ifname envs sv ifs st).badep = none := by rw [hip, hb]
        split at hbad
        · rw [hb1] at hbad; cases hbad
        · exact lift (ih _ ep hb1 hbad)
      · split at hbad
        · rename_i hnl
          split at hbad
          · rename_i hrv
            simp only [Option.some.injEq] at hbad
            exact ⟨sv, st.calls.length, st.os, List.mem_cons_self _ _, hnl, hbad.symm, hrv⟩
          · split at hbad
            · exact lift (ih _ ep (by exact hb) hbad)
            · exact lift (ih _ ep (by exact hb) hbad)
        · exact lift (ih st ep hb hbad)

theorem teardown_from_freed : ∀ (eps : List endpoint) (st : BuildState) (ep : endpoint),
    (ep ∈ eps ∨ ep ∈ st.freed) → ep ∈ (teardown_from eps st).freed := by
  intro eps
  induction eps with
  | nil =>
    intro st ep hmem
    rcases hmem with hmem | hmem
    · cases hmem
    · exact hmem
  | cons x rest ih =>
    intro st ep hmem
    have e2 : teardown_from (x :: rest) st = teardown_from rest
      { st with os := close_ep st.os x, freed := x :: st.freed, endpoints := rest } := rfl
    rw [e2]
    apply ih
    rcases hmem with hmem | hmem
    · rcases List.mem_cons.mp hmem with hx | hx
      · right; rw [hx]; exact List.mem_cons_self _ _
      · left; exact hx
    · right; exact List.mem_cons_of_mem _ hmem

/-- C8. Endpoint-fatal versus process-fatal. During Building a failed `open_ep` for an
IP service only frees that endpoint (registry, readiness mask, `nfds` and `badep` are
untouched), the interface loop goes on with the next record and never sets `badep`,
and the service loop goes on with the next service. The marker `badep` is set only by
a failed `open_ep` for the kernel-link service, which ends the service loop. When it
is set, a cycle of `main` never calls `select`, tears down (closes and frees) every
endpoint of the registry, and exits with status 1. -/
theorem endpoint_fatal_process_fatal (h : Host) (o : Options) (envs : Nat → OpenEnv)
    (ifs : List ifaddrs) (os : OsState) :
    (∀ sv ifa st, selected h o.ifname sv ifa = true →
      (open_ep (envs st.calls.length) st.os sv ifa).rv ≠ 0 →
      build_ip_body h o.ifname envs sv ifa st =
        { st with os := (open_ep (envs st.calls.length) st.os sv ifa).os,
                  calls := st.calls ++ [(sv, ifa)],
                  freed := (open_ep (envs st.calls.length) st.os sv ifa).ep :: st.freed }) ∧
    (∀ sv ifa rest st,
      build_ip h o.ifname envs sv (ifa :: rest) st =
        build_ip h o.ifname envs sv rest (build_ip_body h o.ifname envs sv ifa st)) ∧
    (∀ sv ifs1 st, (build_ip h o.ifname envs sv ifs1 st).badep = st.badep) ∧
    (∀ sv more st, (sv.family = AF_INET ∨ sv.family = AF_INET6) →
      service_skipped o sv = false → st.badep = none →
      build_services h o envs ifs (sv :: more) st =
        build_services h o envs ifs more (build_ip h o.ifname envs sv ifs st)) ∧
    (∀ ep, (build h o envs ifs os).badep = some ep →
      ep.service.family = AF_NETLINK ∧ ep.service ∈ services ∧
      ∃ k os1, ep = (open_ep (envs k) os1 ep.service netlink_ifa).ep ∧
        (open_ep (envs k) os1 ep.service netlink_ifa).rv ≠ 0) ∧
    (∀ sv more st, sv.family = AF_NETLINK → service_skipped o sv = false →
      (open_ep (envs st.calls.length) st.os sv netlink_ifa).rv ≠ 0 →
      build_services h o envs ifs (sv :: more) st =
        { st with os := (open_ep (envs st.calls.length) st.os sv netlink_ifa).os,
                  calls := st.calls ++ [(sv, netlink_ifa)],
                  badep := some (open_ep (envs st.calls.length) st.os sv netlink_ifa).ep }) ∧
    (∀ ep evs restart, h.getifaddrs = some ifs →
      (build h o envs ifs os).badep = some ep →
      (main_cycle h o envs evs os restart).waits = 0 ∧
      (main_cycle h o envs evs os restart).outcome = Outcome.exit EXIT_FAILURE ∧
      (main_cycle h o envs evs os restart).st.endpoints = [] ∧
      (main_cycle h o envs evs os restart).st.os.opened = os.opened ∧
      (main_cycle h o envs evs os restart).st.os.closed =
        (build h o envs ifs os).os.closed + (build h o envs ifs os).endpoints.length ∧
      (∀ e1, e1 ∈ (build h o envs ifs os).endpoints →
        e1 ∈ (main_cycle h o envs evs os restart).st.freed)) := by
  refine ⟨?_, ?_, ?_, ?_, ?_, ?_, ?_⟩
  · intro sv ifa st hsel hrv
    simp only [selected, Bool.and_eq_true, Bool.not_eq_true'] at hsel
    unfold build_ip_body
    simp [hsel.1, hsel.2, hrv]
  · intro sv ifa rest st
    rfl
  · intro sv ifs1 st
    exact (build_ip_calls h o.ifname envs sv ifs1 st).2
  · intro sv more st hfam hpass hb
    have hb1 : (build_ip h o.ifname envs sv ifs st).badep = none := by
      rw [(build_ip_calls h o.ifname envs sv ifs st).2, hb]
    simp [build_services, hpass, hfam, hb1]
  · intro ep hbad
    obtain ⟨sv, k, os1, hmem, hnl, hep, hrv⟩ :=
      build_services_badep h o envs ifs services { os := os } ep rfl hbad
    have hsvc : ep.service = sv := by rw [hep]; exact open_ep_service _ _ _ _
    rw [hsvc]
    exact ⟨hnl, hmem, k, os1, hep, hrv⟩
  · intro sv more st hnl hpass hrv
    have h5 : ¬ (AF_NETLINK = AF_INET ∨ AF_NETLINK = AF_INET6) := by decide
    simp [build_services, hpass, hnl, h5, hrv]
  · intro ep evs restart hget hbad
    have hreg := build_registered h o envs ifs os
    have ht := teardown_released os (build h o envs ifs os) hreg
    have hcyc : main_cycle h o envs evs os restart =
        ⟨teardown (build h o envs ifs os), restart, 0, Outcome.exit EXIT_FAILURE⟩ := by
      unfold main_cycle
      simp only [hget, hbad, Option.isNone_some, Bool.false_eq_true, if_false]
      unfold cycle_end
      simp [hbad]
    rw [hcyc]
    refine ⟨rfl, rfl, ht.1, ht.2.1.1, ht.2.2, ?_⟩
    intro e1 he1
    exact teardown_from_freed _ _ e1 (Or.inl he1)

/-! ## Outcome contract of the builder -/

theorem sys_close_errno (os0 os : OsState) (ep : endpoint) (e : Nat)
    (hh : Holds os0 os ep) : (sys_close ep.sock { os with errno := e }).errno = e := by
  obtain ⟨h0, h1, _⟩ := hh
  have hmem : ep.sock.toNat ∈ os.opened := by rw [h1]; exact List.mem_cons_self _ _
  unfold sys_close
  rw [if_pos ⟨h0, hmem⟩]

theorem fail_close_failed (os0 os : OsState) (ep : endpoint) (msg : String) (e : Nat)
    (stage : Stage) (hh : Holds os0 os ep) (hmsg : msg ≠ "")
    (h1 : stage ≠ Stage.done) (h2 : stage ≠ Stage.init) (h3 : stage ≠ Stage.family)
    (h4 : stage ≠ Stage.port) :
    Failed os0 (fail_close ep os msg e stage) := by
  have hrel : Released os0 (sys_close ep.sock { os with errno := e }) :=
    sys_close_released os0 _ ep hh
  refine ⟨rfl, h1, h2, hrel, ⟨msg, rfl, hmsg⟩, ?_⟩
  simp only [fail_close, recorded_errno, h3, h4, if_false]
  exact (sys_close_errno os0 os ep e hh).symm

theorem open_ep_init_shape (env : OpenEnv) (os0 os : OsState) (ep : endpoint)
    (hh : Holds os0 os ep) (hc : slot_clean ep) :
    Ready os0 (open_ep_init env os ep) ∨ InitFailed env os0 (open_ep_init env os ep) := by
  unfold open_ep_init
  cases hinit : ep.service.init.isSome with
  | false =>
    left
    simp only [Bool.false_eq_true, if_false]
    exact ⟨rfl, rfl, hh⟩
  | true =>
    simp only [if_true]
    cases herr : env.init_err with
    | none =>
      simp only []
      split
      · right
        rename_i hne
        exact ⟨rfl, rfl, sys_close_released os0 os ep hh, hinit, hne,
          (by rw [herr]; exact hc.1), (by rw [herr]; exact hc.2)⟩
      · left
        exact ⟨rfl, rfl, hh⟩
    | some p =>
      obtain ⟨msg, e⟩ := p
      have hh1 : Holds os0 os { ep with errstr := some msg, _errno := e } := hh
      simp only []
      split
      · right
        rename_i hne
        exact ⟨rfl, rfl, sys_close_released os0 os _ hh1, hinit, hne,
          (by rw [herr]; rfl), (by rw [herr]; rfl)⟩
      · left
        exact ⟨rfl, rfl, hh1⟩

theorem open_ep_listen_shape (env : OpenEnv) (os0 os : OsState) (ep : endpoint)
    (hh : Holds os0 os ep) (hc : slot_clean ep) :
    Ready os0 (open_ep_listen env os ep) ∨ Failed os0 (open_ep_listen env os ep) ∨
    InitFailed env os0 (open_ep_listen env os ep) := by
  have hinit := open_ep_init_shape env os0 os ep hh hc
  have hlift : Ready os0 (open_ep_init env os ep) ∨ Failed os0 (open_ep_init env os ep) ∨
      InitFailed env os0 (open_ep_init env os ep) := by
    rcases hinit with h | h
    · exact Or.inl h
    · exact Or.inr (Or.inr h)
  unfold open_ep_listen
  split
  · split
    · right; left
      exact fail_close_failed os0 os ep _ _ _ hh (by decide) (by decide) (by decide)
        (by decide) (by decide)
    · exact hlift
  · exact hlift

theorem open_ep_mcast_shape (env : OpenEnv) (os0 os : OsState) (sv : service)
    (ep : endpoint) (hh : Holds os0 os ep) (hc : slot_clean ep) :
    Ready os0 (open_ep_mcast env os sv ep) ∨ Failed os0 (open_ep_mcast env os sv ep) ∨
    InitFailed env os0 (open_ep_mcast env os sv ep) := by
  have hlisten := open_ep_listen_shape env os0 os ep hh hc
  unfold open_ep_mcast
  split
  · split
    · right; left
      exact fail_close_failed os0 os ep _ _ _ hh (by decide) (by decide) (by decide)
        (by decide) (by decide)
    · split
      · right; left
        exact fail_close_failed os0 os ep _ _ _ hh (by decide) (by decide) (by decide)
          (by decide) (by decide)
      · split
        · right; left
          exact fail_close_failed os0 os ep _ _ _ hh (by decide) (by decide) (by decide)
            (by decide) (by decide)
        · split
          · right; left
            exact fail_close_failed os0 os ep _ _ _ hh (by decide) (by decide) (by decide)
              (by decide) (by decide)
          · exact hlisten
  · exact hlisten

theorem open_ep_bind_shape (env : OpenEnv) (os0 os : OsState) (sv : service)
    (ep : endpoint) (hh : Holds os0 os ep) (hc : slot_clean ep) :
    Shaped env os0 (open_ep_bind env os sv ep) := by
  unfold open_ep_bind
  cases hb : env.bind with
  | none =>
    simp only []
    rcases open_ep_mcast_shape env os0 os sv ep hh hc with h | h | h
    · exact Or.inl ⟨h, hb⟩
    · exact Or.inr (Or.inr (Or.inl h))
    · exact Or.inr (Or.inr (Or.inr h))
  | some e =>
    simp only []
    have hrel : Released os0 (sys_close ep.sock { os with errno := e }) :=
      sys_close_released os0 _ ep hh
    have hslot : slot_populated
        { ep with errstr := some "open_ep: bind", _errno := e, sock := -1 } :=
      ⟨_, rfl, by decide⟩
    by_cases he : e = EADDRINUSE
    · right; left
      refine ⟨by simp [he], rfl, rfl, (by rw [hb, he]), hrel, hslot⟩
    · right; right; left
      refine ⟨by simp [he], (by simp), (by simp), hrel, hslot, ?_⟩
      simp only [recorded_errno]
      rw [if_neg (by simp), if_neg (by simp)]
      exact (sys_close_errno os0 os ep e hh).symm

theorem open_ep_socket_shape (env : OpenEnv) (os : OsState) (sv : service)
    (ep : endpoint) (hc : slot_clean ep) :
    Shaped env os (open_ep_socket env os sv ep) := by
  unfold open_ep_socket
  split
  · right; right; left
    rename_i e _
    refine ⟨rfl, (by simp), (by simp), released_errno os e, ⟨_, rfl, by decide⟩, ?_⟩
    simp [recorded_errno]
  · have hh : ∀ os2 : OsState, os2 = (match (if ep.family = AF_NETLINK
            then env.so_rcvbufforce else none) with
          | some e =>
            { opened := lowest_free os.opened :: os.opened, created := os.created + 1,
              closed := os.closed, badclose := os.badclose, errno := e }
          | none =>
            { os with opened := lowest_free os.opened :: os.opened,
                      created := os.created + 1 }) →
        Holds os os2 { ep with sock := (lowest_free os.opened : Int) } := by
      intro os2 h2
      rw [h2]
      split <;>
        exact ⟨Int.ofNat_nonneg _, by simp, rfl, rfl, rfl, by simpa using lowest_free_not_mem os.opened⟩
    have hh2 := hh _ rfl
    have hc2 : slot_clean { ep with sock := (lowest_free os.opened : Int) } := hc
    simp only []
    split
    · right; right; left
      exact fail_close_failed os _ _ _ _ _ hh2 (by decide) (by decide) (by decide)
        (by decide) (by decide)
    · split
      · right; right; left
        exact fail_close_failed os _ _ _ _ _ hh2 (by decide) (by decide) (by decide)
          (by decide) (by decide)
      · exact open_ep_bind_shape env os _ sv _ hh2 hc2

theorem open_ep_addresses_shape (env : OpenEnv) (os : OsState) (sv : service)
    (ifa : ifaddrs) (sp : sock_params_t) (ep : endpoint) (hc : slot_clean ep) :
    Shaped env os (open_ep_addresses env os sv ifa sp ep) := by
  unfold open_ep_addresses
  simp only []
  split
  · split
    · split
      · right; right; left
        refine ⟨rfl, (by simp), (by simp), released_if_errno os _ _, ?_, ?_⟩
        · refine ⟨_, rfl, ?_⟩
          split <;> decide
        · simp [recorded_errno]
      · exact open_ep_socket_shape env os sv _ hc
    · exact open_ep_socket_shape env os sv _ hc
  · split
    · exact open_ep_socket_shape env os sv _ hc
    · exact open_ep_socket_shape env os sv _ hc

/-- Every run of `open_ep` ends in one of the four shapes. -/
theorem open_ep_shape (env : OpenEnv) (os : OsState) (sv : service) (ifa : ifaddrs) :
    Shaped env os (open_ep env os sv ifa) := by
  have hc : slot_clean
      { ifname := ifa.ifa_name, service := sv, family := sv.family, type := sv.type,
        protocol := sv.protocol } := ⟨rfl, rfl⟩
  unfold open_ep
  simp only []
  split
  · right; right; left
    exact ⟨rfl, (by simp), (by simp), released_refl os, ⟨_, rfl, by decide⟩,
      by simp [recorded_errno]⟩
  · split
    · by_cases hport : (if (env.getservbyname sv.port_name (servicename sv.type)).getD 0 = 0
          then sv.port_num
          else (env.getservbyname sv.port_name (servicename sv.type)).getD 0) = 0
      · rw [if_pos hport]
        right; right; left
        exact ⟨rfl, (by simp), (by simp), released_refl os, ⟨_, rfl, by decide⟩,
          by simp [recorded_errno]⟩
      · rw [if_neg hport]
        exact open_ep_addresses_shape env os sv ifa _ _ hc
    · exact open_ep_addresses_shape env os sv ifa _ _ hc

/-- C11, counterexample. The init callback of a service returns non-zero without
writing the error slot: `open_ep` closes the socket and returns -1, and the error slot
of the endpoint is empty (no message, code 0). -/
theorem init_failure_leaves_slot_empty :
    wsdd_mcast_v4.init = some "wsd_init" ∧
    (open_ep { init := -1 } {} wsdd_mcast_v4 eth0_record).rv = -1 ∧
    (open_ep { init := -1 } {} wsdd_mcast_v4 eth0_record).stage = Stage.init ∧
    (open_ep { init := -1 } {} wsdd_mcast_v4 eth0_record).os.opened = [] ∧
    (open_ep { init := -1 } {} wsdd_mcast_v4 eth0_record).ep.errstr = none ∧
    (open_ep { init := -1 } {} wsdd_mcast_v4 eth0_record).ep._errno = 0 ∧
    ¬ slot_populated (open_ep { init := -1 } {} wsdd_mcast_v4 eth0_record).ep := by
  have hstr : (open_ep { init := -1 } {} wsdd_mcast_v4 eth0_record).ep.errstr = none := by
    decide
  refine ⟨rfl, by decide, by decide, by decide, hstr, by decide, ?_⟩
  rintro ⟨msg, hmsg, _⟩
  rw [hstr] at hmsg
  cases hmsg

/-- C11, amended. Every run of `open_ep` returns 0 or -1. With 0 it either ran to its
end with `bind` done and the endpoint holding the one new, open socket, or it is the
address-in-use skip with handle -1 and no socket left open. With -1 no socket is left
open; at every return point but the init callback the error slot holds a non-empty
message and the recorded error code; after a non-zero result of the init callback the
error slot is exactly what the callback left, so it is populated only if the callback
wrote a non-empty message. -/
theorem open_ep_outcome_contract (env : OpenEnv) (os : OsState) (sv : service)
    (ifa : ifaddrs) :
    ((open_ep env os sv ifa).rv = 0 ∨ (open_ep env os sv ifa).rv = -1) ∧
    ((open_ep env os sv ifa).rv = 0 →
      ((open_ep env os sv ifa).stage = Stage.done ∧ env.bind = none ∧
        Holds os (open_ep env os sv ifa).os (open_ep env os sv ifa).ep) ∨
      ((open_ep env os sv ifa).stage = Stage.bind ∧ env.bind = some EADDRINUSE ∧
        (open_ep env os sv ifa).ep.sock = -1 ∧ Released os (open_ep env os sv ifa).os)) ∧
    ((open_ep env os sv ifa).rv ≠ 0 →
      Released os (open_ep env os sv ifa).os ∧
      ((open_ep env os sv ifa).stage ≠ Stage.init →
        slot_populated (open_ep env os sv ifa).ep ∧
        (open_ep env os sv ifa).ep._errno = recorded_errno (open_ep env os sv ifa)) ∧
      ((open_ep env os sv ifa).stage = Stage.init →
        sv.init.isSome = true ∧ env.init ≠ 0 ∧
        (open_ep env os sv ifa).ep.errstr = env.init_err.map Prod.fst ∧
        (open_ep env os sv ifa).ep._errno = (env.init_err.map Prod.snd).getD 0 ∧
        (slot_populated (open_ep env os sv ifa).ep ↔
          ∃ msg e, env.init_err = some (msg, e) ∧ msg ≠ ""))) := by
  have hsvc := open_ep_service env os sv ifa
  rcases open_ep_shape env os sv ifa with ⟨⟨h1, h2, h3⟩, hb⟩ | ⟨h1, h2, h3, h4, h5, _⟩ |
      ⟨h1, h2, h3, h4, h5, h6⟩ | ⟨h1, h2, h3, h4, h5, h6, h7⟩
  · refine ⟨Or.inl h1, fun _ => Or.inl ⟨h2, hb, h3⟩, ?_⟩
    intro hne; exact absurd h1 hne
  · refine ⟨Or.inl h1, fun _ => Or.inr ⟨h2, h4, h3, h5⟩, ?_⟩
    intro hne; exact absurd h1 hne
  · refine ⟨Or.inr h1, ?_, ?_⟩
    · intro h0; rw [h1] at h0; exact absurd h0 (by decide)
    · intro _
      exact ⟨h4, fun _ => ⟨h5, h6⟩, fun hi => absurd hi h3⟩
  · refine ⟨Or.inr h1, ?_, ?_⟩
    · intro h0; rw [h1] at h0; exact absurd h0 (by decide)
    · intro _
      refine ⟨h3, fun hn => absurd h2 hn, fun _ => ⟨?_, h5, h6, h7, ?_⟩⟩
      · rw [← hsvc]; exact h4
      · unfold slot_populated
        rw [h6]
        constructor
        · rintro ⟨msg, hm, hne⟩
          cases herr : env.init_err with
          | none => rw [herr] at hm; cases hm
          | some p =>
            obtain ⟨m, e⟩ := p
            rw [herr] at hm
            simp only [Option.map_some', Option.some.injEq] at hm
            exact ⟨m, e, rfl, by rw [hm]; exact hne⟩
        · rintro ⟨msg, e, herr, hne⟩
          exact ⟨msg, by rw [herr]; rfl, hne⟩

/-! ## Option parsing -/

theorem getopt_loop_append (h : Host) : ∀ (pre rest : List Opt) (st0 : ParseState),
    getopt_loop h (pre ++ rest) st0 =
      match getopt_loop h pre st0 with
      | Except.error c => Except.error c
      | Except.ok st => getopt_loop h rest st := by
  intro pre
  induction pre with
  | nil => intro rest st0; rfl
  | cons o more ih =>
    intro rest st0
    simp only [List.cons_append, getopt_loop]
    cases getopt_case h st0 o with
    | error c => rfl
    | ok st1 => exact ih rest st1

/-- An option other than `-i` leaves `ifname` and `ifindex` alone. -/
theorem getopt_case_keeps_filter (h : Host) (st st1 : ParseState) (o : Opt)
    (hno : ∀ a, o ≠ Opt.i a) (hok : getopt_case h st o = Except.ok st1) :
    st1.ifname = st.ifname ∧ st1.ifindex = st.ifindex := by
  cases o with
  | i a => exact absurd rfl (hno a)
  | b bad =>
    simp only [getopt_case] at hok
    split at hok
    · cases hok
    · cases hok; exact ⟨rfl, rfl⟩
  | N a =>
    simp only [getopt_case] at hok
    split at hok
    · cases hok; exact ⟨rfl, rfl⟩
    · split at hok <;> (cases hok; exact ⟨rfl, rfl⟩)
  | G a =>
    simp only [getopt_case] at hok
    split at hok
    · cases hok; exact ⟨rfl, rfl⟩
    · split at hok <;> (cases hok; exact ⟨rfl, rfl⟩)
  | h => simp [getopt_case] at hok
  | unknown => simp [getopt_case] at hok
  | L => simp only [getopt_case] at hok; cases hok; exact ⟨rfl, rfl⟩
  | W => simp only [getopt_case] at hok; cases hok; exact ⟨rfl, rfl⟩
  | d => simp only [getopt_case] at hok; cases hok; exact ⟨rfl, rfl⟩
  | v4 => simp only [getopt_case] at hok; cases hok; exact ⟨rfl, rfl⟩
  | v6 => simp only [getopt_case] at hok; cases hok; exact ⟨rfl, rfl⟩
  | l => simp only [getopt_case] at hok; cases hok; exact ⟨rfl, rfl⟩
  | w => simp only [getopt_case] at hok; cases hok; exact ⟨rfl, rfl⟩
  | t => simp only [getopt_case] at hok; cases hok; exact ⟨rfl, rfl⟩
  | u => simp only [getopt_case] at hok; cases hok; exact ⟨rfl, rfl⟩

theorem getopt_loop_keeps_filter (h : Host) : ∀ (post : List Opt) (st st2 : ParseState),
    (∀ o, o ∈ post → ∀ a, o ≠ Opt.i a) → getopt_loop h post st = Except.ok st2 →
    st2.ifname = st.ifname ∧ st2.ifindex = st.ifindex := by
  intro post
  induction post with
  | nil =>
    intro st st2 _ hok
    simp only [getopt_loop] at hok
    cases hok
    exact ⟨rfl, rfl⟩
  | cons o more ih =>
    intro st st2 hno hok
    simp only [getopt_loop] at hok
    cases hcase : getopt_case h st o with
    | error c => rw [hcase] at hok; cases hok
    | ok st1 =>
      rw [hcase] at hok
      have h1 := getopt_case_keeps_filter h st st1 o (hno o (List.mem_cons_self _ _)) hcase
      have h2 := ih st1 st2 (fun x hx => hno x (List.mem_cons_of_mem _ hx)) hok
      exact ⟨h2.1.trans h1.1, h2.2.trans h1.2⟩

/-- The `-i` case of the option switch. -/
theorem getopt_case_i (h : Host) (st : ParseState) (name : String) :
    getopt_case h st (Opt.i (some name)) =
      if 1 < strlen name then
        if h.if_nametoindex name = 0 then Except.error EXIT_FAILURE
        else Except.ok { st with ifindex := h.if_nametoindex name, ifname := some name }
      else Except.ok st := by
  simp only [getopt_case, gt_iff_lt]

/-! ## Tracing endpoints back to calls -/

theorem open_ep_init_ifname (env : OpenEnv) (os : OsState) (ep : endpoint) :
    (open_ep_init env os ep).ep.ifname = ep.ifname := by
  unfold open_ep_init
  split
  · simp only []
    split <;> (split <;> rfl)
  · rfl

theorem open_ep_listen_ifname (env : OpenEnv) (os : OsState) (ep : endpoint) :
    (open_ep_listen env os ep).ep.ifname = ep.ifname := by
  unfold open_ep_listen
  split
  · split
    · rfl
    · exact open_ep_init_ifname env os ep
  · exact open_ep_init_ifname env os ep

theorem open_ep_mcast_ifname (env : OpenEnv) (os : OsState) (sv : service) (ep : endpoint) :
    (open_ep_mcast env os sv ep).ep.ifname = ep.ifname := by
  unfold open_ep_mcast
  split
  · split
    · rfl
    · split
      · rfl
      · split
        · rfl
        · split
          · rfl
          · exact open_ep_listen_ifname env os ep
  · exact open_ep_listen_ifname env os ep

theorem open_ep_bind_ifname (env : OpenEnv) (os : OsState) (sv : service) (ep : endpoint) :
    (open_ep_bind env os sv ep).ep.ifname = ep.ifname := by
  unfold open_ep_bind
  split
  · rfl
  · exact open_ep_mcast_ifname env os sv ep

theorem open_ep_socket_ifname (env : OpenEnv) (os : OsState) (sv : service) (ep : endpoint) :
    (open_ep_socket env os sv ep).ep.ifname = ep.ifname := by
  unfold open_ep_socket
  split
  · rfl
  · simp only []
    split
    · rfl
    · split
      · rfl
      · rw [open_ep_bind_ifname]

theorem open_ep_addresses_ifname (env : OpenEnv) (os : OsState) (sv : service)
    (ifa : ifaddrs) (sp : sock_params_t) (ep : endpoint) :
    (open_ep_addresses env os sv ifa sp ep).ep.ifname = ep.ifname := by
  unfold open_ep_addresses
  simp only []
  split
  · split
    · split
      · rfl
      · rw [open_ep_socket_ifname]
    · rw [open_ep_socket_ifname]
  · split
    · rw [open_ep_socket_ifname]
    · rw [open_ep_socket_ifname]

/-- The endpoint `open_ep` leaves carries the name of the record it was called with. -/
theorem open_ep_ifname (env : OpenEnv) (os : OsState) (sv : service) (ifa : ifaddrs) :
    (open_ep env os sv ifa).ep.ifname = ifa.ifa_name := by
  unfold open_ep
  simp only []
  split
  · rfl
  · split
    · by_cases hport : (if (env.getservbyname sv.port_name (servicename sv.type)).getD 0 = 0
          then sv.port_num
          else (env.getservbyname sv.port_name (servicename sv.type)).getD 0) = 0
      · rw [if_pos hport]
      · rw [if_neg hport, open_ep_addresses_ifname]
    · rw [open_ep_addresses_ifname]

/-- What the supervisor does with a finished `open_ep` run keeps the registry traced. -/
theorem traced_after_open (st : BuildState) (os1 : OsState) (sv : service) (ifa : ifaddrs)
    (ep1 : endpoint) (hname : ep1.ifname = ifa.ifa_name) (hsvc : ep1.service = sv)
    (htr : Traced st) :
    (∀ freed badep,
      Traced { st with os := os1, calls := st.calls ++ [(sv, ifa)], freed := freed,
                       badep := badep }) ∧
    Traced (register_ep { st with os := os1, calls := st.calls ++ [(sv, ifa)] } ep1) := by
  have hold : ∀ ep, ep ∈ st.endpoints →
      ∃ p, p ∈ st.calls ++ [(sv, ifa)] ∧ ep.ifname = p.2.ifa_name ∧ ep.service = p.1 := by
    intro ep hep
    obtain ⟨p, hp, h1, h2⟩ := htr ep hep
    exact ⟨p, List.mem_append_left _ hp, h1, h2⟩
  refine ⟨fun _ _ => hold, ?_⟩
  intro ep hep
  simp only [register_ep, List.mem_cons] at hep
  rcases hep with hep | hep
  · refine ⟨(sv, ifa), ?_, ?_, ?_⟩
    · show (sv, ifa) ∈ st.calls ++ [(sv, ifa)]
      simp
    · rw [hep]; exact hname
    · rw [hep]; exact hsvc
  · exact hold ep hep

theorem build_ip_body_traced (h : Host) (ifname : Option String) (envs : Nat → OpenEnv)
    (sv : service) (ifa : ifaddrs) (st : BuildState) (htr : Traced st) :
    Traced (build_ip_body h ifname envs sv ifa st) := by
  have hopen := traced_after_open st (open_ep (envs st.calls.length) st.os sv ifa).os sv ifa
    (open_ep (envs st.calls.length) st.os sv ifa).ep (open_ep_ifname _ _ _ _)
    (open_ep_service _ _ _ _) htr
  unfold build_ip_body
  split
  · exact htr
  · split
    · exact htr
    · simp only []
      split
      · exact hopen.1 _ st.badep
      · split
        · exact hopen.1 _ st.badep
        · exact hopen.2

theorem build_ip_traced (h : Host) (ifname : Option String) (envs : Nat → OpenEnv)
    (sv : service) : ∀ (ifs : List ifaddrs) (st : BuildState),
    Traced st → Traced (build_ip h ifname envs sv ifs st) := by
  intro ifs
  induction ifs with
  | nil => intro st htr; exact htr
  | cons ifa rest ih =>
    intro st htr
    exact ih _ (build_ip_body_traced h ifname envs sv ifa st htr)

theorem build_services_traced (h : Host) (o : Options) (envs : Nat → OpenEnv)
    (ifs : List ifaddrs) : ∀ (svs : List service) (st : BuildState),
    Traced st → Traced (build_services h o envs ifs svs st) := by
  intro svs
  induction svs with
  | nil => intro st htr; exact htr
  | cons sv rest ih =>
    intro st htr
    have hopen := traced_after_open st
      (open_ep (envs st.calls.length) st.os sv netlink_ifa).os sv netlink_ifa
      (open_ep (envs st.calls.length) st.os sv netlink_ifa).ep (open_ep_ifname _ _ _ _)
      (open_ep_service _ _ _ _) htr
    simp only [build_services]
    split
    · exact ih st htr
    · split
      · have hip := build_ip_traced h o.ifname envs sv ifs st htr
        split
        · exact hip
        · exact ih _ hip
      · split
        · split
          · exact hopen.1 st.freed _
          · split
            · exact ih _ (hopen.1 _ st.badep)
            · exact ih _ hopen.2
        · exact ih st htr

/-- Every call of the service loop is justified, if those made before it are. -/
theorem build_services_calls_justified (h : Host) (o : Options) (envs : Nat → OpenEnv)
    (ifs : List ifaddrs) : ∀ (svs : List service) (st : BuildState),
    (∀ p, p ∈ st.calls → call_justified h o.ifname p) →
    ∀ p, p ∈ (build_services h o envs ifs svs st).calls → call_justified h o.ifname p := by
  intro svs
  induction svs with
  | nil => intro st hst p hp; exact hst p hp
  | cons sv rest ih =>
    intro st hst
    have hnl : sv.family = AF_NETLINK →
        ∀ p, p ∈ st.calls ++ [(sv, netlink_ifa)] → call_justified h o.ifname p := by
      intro hfam p hp
      rcases List.mem_append.mp hp with hp | hp
      · exact hst p hp
      · rw [List.mem_singleton] at hp
        rw [hp]
        exact Or.inr ⟨hfam, rfl⟩
    have hip : ∀ p, p ∈ (build_ip h o.ifname envs sv ifs st).calls →
        call_justified h o.ifname p := by
      intro p hp
      rw [(build_ip_calls h o.ifname envs sv ifs st).1] at hp
      rcases List.mem_append.mp hp with hp | hp
      · exact hst p hp
      · simp only [List.mem_map, List.mem_filter] at hp
        obtain ⟨a, ⟨_, ha⟩, hpa⟩ := hp
        rw [← hpa]
        exact Or.inl ha
    simp only [build_services]
    split
    · exact ih st hst
    · split
      · split
        · exact hip
        · exact ih _ hip
      · split
        · rename_i hfam
          split
          · exact hnl hfam
          · split
            · exact ih _ (hnl hfam)
            · exact ih _ (by simpa [register_ep] using hnl hfam)
        · exact ih st hst

/-! ## The explicit interface option -/

/-- C12, counterexample. No interface of the host is named "x" and `-i x` is passed:
the option is skipped by its length test, so the program does not exit; it builds
endpoints with no interface filter (nine sockets, on `eth0`, `eth1` and the kernel
link) and blocks in `select`. -/
theorem short_interface_name_ignored :
    two_link_host.if_nametoindex "x" = 0 ∧
    (∀ ifa, ifa ∈ two_link_ifaddrs → ifa.ifa_name ≠ "x") ∧
    getopt_loop two_link_host [Opt.i (some "x")] {} = Except.ok {} ∧
    (main two_link_host [Opt.i (some "x")] (fun _ => {}) [] {}).outcome = Outcome.blocked ∧
    (main two_link_host [Opt.i (some "x")] (fun _ => {}) [] {}).st.os.created = 9 ∧
    (main two_link_host [Opt.i (some "x")] (fun _ => {}) [] {}).st.endpoints.map
        (fun ep => ep.ifname) =
      ["netlink", "eth1", "eth0", "eth1", "eth0", "eth1", "eth0", "eth1", "eth0"] := by
  refine ⟨by decide, by decide, rfl, by decide, by decide, by decide⟩

/-- C12, amended. For a name of more than one character passed as `-i NAME`: if
`if_nametoindex` finds no interface of that name, `main` exits with status 1 at that
option, whatever options came before and after, with no `open_ep` call made and the
descriptor table untouched; otherwise the option stores NAME and its index, and they
are the filter at the start of Building when no later `-i` replaces them. While the
filter holds NAME, every `open_ep` call and every registry endpoint is on a record
named NAME, except the kernel-link endpoint on its synthetic record "netlink". A name
of at most one character leaves the parse state as it was. -/
theorem explicit_interface_option (h : Host) (name : String) :
    (1 < strlen name → h.if_nametoindex name = 0 →
      ∀ pre post st envs evs os, getopt_loop h pre {} = Except.ok st →
        (main h (pre ++ Opt.i (some name) :: post) envs evs os).outcome =
          Outcome.exit EXIT_FAILURE ∧
        (main h (pre ++ Opt.i (some name) :: post) envs evs os).st.os = os ∧
        (main h (pre ++ Opt.i (some name) :: post) envs evs os).st.calls = [] ∧
        (main h (pre ++ Opt.i (some name) :: post) envs evs os).st.endpoints = [] ∧
        (main h (pre ++ Opt.i (some name) :: post) envs evs os).waits = 0) ∧
    (1 < strlen name → h.if_nametoindex name ≠ 0 →
      (∀ st, getopt_case h st (Opt.i (some name)) =
        Except.ok { st with ifindex := h.if_nametoindex name, ifname := some name }) ∧
      (∀ pre post st2, (∀ o, o ∈ post → ∀ a, o ≠ Opt.i a) →
        getopt_loop h (pre ++ Opt.i (some name) :: post) {} = Except.ok st2 →
        (options_at_again st2).ifname = some name ∧
        (options_at_again st2).ifindex = h.if_nametoindex name)) ∧
    (∀ o envs ifs os, o.ifname = some name →
      (∀ p, p ∈ (build h o envs ifs os).calls →
        p.2.ifa_name = name ∨ (p.1.family = AF_NETLINK ∧ p.2 = netlink_ifa)) ∧
      (∀ ep, ep ∈ (build h o envs ifs os).endpoints →
        ep.ifname = name ∨ (ep.service.family = AF_NETLINK ∧ ep.ifname = "netlink"))) ∧
    (strlen name ≤ 1 → ∀ st, getopt_case h st (Opt.i (some name)) = Except.ok st) := by
  refine ⟨?_, ?_, ?_, ?_⟩
  · intro hlen hidx pre post st envs evs os hpre
    have hcase : getopt_case h st (Opt.i (some name)) = Except.error EXIT_FAILURE := by
      rw [getopt_case_i, if_pos hlen, if_pos hidx]
    have hloop : getopt_loop h (pre ++ Opt.i (some name) :: post) {} =
        Except.error EXIT_FAILURE := by
      rw [getopt_loop_append, hpre]
      simp only [getopt_loop, hcase]
    unfold main
    rw [hloop]
    exact ⟨rfl, rfl, rfl, rfl, rfl⟩
  · intro hlen hidx
    have hcase : ∀ st, getopt_case h st (Opt.i (some name)) =
        Except.ok { st with ifindex := h.if_nametoindex name, ifname := some name } := by
      intro st
      rw [getopt_case_i, if_pos hlen, if_neg hidx]
    refine ⟨hcase, ?_⟩
    intro pre post st2 hno hok
    rw [getopt_loop_append] at hok
    cases hpre : getopt_loop h pre {} with
    | error c => rw [hpre] at hok; cases hok
    | ok st =>
      rw [hpre] at hok
      simp only [getopt_loop, hcase] at hok
      have hk := getopt_loop_keeps_filter h post _ st2 hno hok
      exact ⟨hk.1, hk.2⟩
  · intro o envs ifs os hname
    have hcalls : ∀ p, p ∈ (build h o envs ifs os).calls →
        p.2.ifa_name = name ∨ (p.1.family = AF_NETLINK ∧ p.2 = netlink_ifa) := by
      intro p hp
      have hj := build_services_calls_justified h o envs ifs services { os := os }
        (by intro q hq; cases hq) p hp
      rcases hj with hsel | hnl
      · left
        simp only [selected, Bool.and_eq_true, Bool.not_eq_true'] at hsel
        have hf := (ifa_skipped_eq_false_iff o.ifname p.1 p.2).mp hsel.1
        rcases hf.2.2.2.1 with hn | hn
        · rw [hname] at hn; cases hn
        · rw [hname] at hn
          simp only [Option.some.injEq] at hn
          exact hn.symm
      · exact Or.inr hnl
    refine ⟨hcalls, ?_⟩
    intro ep hep
    have htr := build_services_traced h o envs ifs services { os := os }
      (by intro e he; cases he)
    obtain ⟨p, hp, h1, h2⟩ := htr ep hep
    rcases hcalls p hp with hc | ⟨hc1, hc2⟩
    · left; rw [h1, hc]
    · right
      refine ⟨by rw [h2]; exact hc1, ?_⟩
      rw [h1, hc2]; rfl
  · intro hlen st
    rw [getopt_case_i, if_neg (by omega)]

end Wsdd2
